import Mathlib

set_option maxRecDepth 4000

/-!
Verification development for the crewai-ts Crew Orchestration Engine
(src/crew/index.ts: createCrew, runCrew).

The TypeScript source is shallowly embedded in Lean:

* JavaScript runtime values that flow through `crew.output` / `taskOutputs`
  are modelled by the inductive `JValue` (null, strings, objects, arrays);
  JS truthiness, `typeof x === 'object'`, `Object.keys`, the `in` operator
  and object spread are modelled by explicit functions on `JValue`.
* External collaborators are modelled as an `Env` record supplying, per
  call, the Manager's raw text response, the result of the JS builtin
  `JSON.parse` (None = parse throws or the parsed value is unusable as a
  decision object), the Task Executor's effect on the task record, and the
  final-summary call's outcome.  The engine's prompt strings flow only
  outward into these calls and never influence control flow, so prompt
  construction is elided.
* `runCrew` becomes a pure function `Crew → Env → Crew × RunTrace`, where
  `RunTrace` records the observable calls (Task Executor invocations with
  their iteration number, Manager decision calls, summary calls).
* Wall-clock fields (createdAt/startedAt/...), console logging, verbosity
  and telemetry are elided: they never influence the control flow or the
  fields any claim speaks about.
-/

namespace CrewAI

/-- JavaScript values, restricted to the shapes that actually flow through
the orchestration engine's output bookkeeping. -/
inductive JValue where
  | vnull
  | vstr (s : String)
  | vobj (fields : List (String × JValue))
  | varr (elems : List JValue)

/-- JS truthiness of a value (`if (x)`), for the shapes in `JValue`. -/
def jvTruthy : JValue → Bool
  | JValue.vnull => false
  | JValue.vstr s => !s.isEmpty
  | JValue.vobj _ => true
  | JValue.varr _ => true

/-- JS truthiness of a possibly-absent (undefined) value. -/
def jvTruthyOpt : Option JValue → Bool
  | none => false
  | some v => jvTruthy v

/-- Length of `Object.keys(x)` for the shapes in `JValue` (callers in the
source guard against `null` before using it). -/
def jvKeysLen : JValue → Nat
  | JValue.vnull => 0
  | JValue.vstr s => s.length
  | JValue.vobj fs => fs.length
  | JValue.varr es => es.length

/-- Whether `typeof x === 'object'` holds (true for JS null and arrays). -/
def jvTypeofObject : JValue → Bool
  | JValue.vnull => true
  | JValue.vobj _ => true
  | JValue.varr _ => true
  | JValue.vstr _ => false

/-- The JS `in` operator on an object value (`'k' in x`). -/
def jvHasKey (v : JValue) (k : String) : Bool :=
  match v with
  | JValue.vobj fs => fs.any (fun p => p.1 == k)
  | _ => false

/-- Property read `x[k]` on an object value; `none` models undefined. -/
def jvGet (v : JValue) (k : String) : Option JValue :=
  match v with
  | JValue.vobj fs => (fs.find? (fun p => p.1 == k)).map Prod.snd
  | _ => none

/-- Fields contributed by object spread `{...x}`: an object's own fields,
nothing for null, index keys for arrays. -/
def jvSpreadFields : JValue → List (String × JValue)
  | JValue.vobj fs => fs
  | JValue.vnull => []
  | JValue.varr es => (es.enum).map (fun p => (toString p.1, p.2))
  | JValue.vstr s => (s.data.enum).map (fun p => (toString p.1, JValue.vstr (String.mk [p.2])))

/-- JS `Map.get` / first-match lookup in an association list. -/
def mapGet {α : Type} (m : List (String × α)) (k : String) : Option α :=
  (m.find? (fun p => p.1 == k)).map Prod.snd

/-- JS `Map.set`: replace the value at an existing key in place (keeping
insertion order), else append the new binding. -/
def mapSet {α : Type} (m : List (String × α)) (k : String) (v : α) : List (String × α) :=
  match m with
  | [] => [(k, v)]
  | (k2, v2) :: rest => if k2 == k then (k, v) :: rest else (k2, v2) :: mapSet rest k v

/-- JS string coercion `String(x)` for the shapes in `JValue`; used by the
source only to build human-readable message strings. -/
def jsToString : JValue → String
  | JValue.vnull => "null"
  | JValue.vstr s => s
  | JValue.vobj _ => "[object Object]"
  | JValue.varr es => String.intercalate "," (es.map (fun e => jsToStringElem e))
where
  jsToStringElem : JValue → String
  | JValue.vnull => ""
  | JValue.vstr s => s
  | JValue.vobj _ => "[object Object]"
  | JValue.varr _ => ""

/-- Escape for string content inside `JSON.stringify` (quote, backslash and
newline; no other control characters occur in this development). -/
def jsonEscape (s : String) : String :=
  String.mk (s.data.foldr (fun c acc =>
    if c == '"' then '\\' :: '"' :: acc
    else if c == '\\' then '\\' :: '\\' :: acc
    else if c == '\n' then '\\' :: 'n' :: acc
    else c :: acc) [])

/-- JS `JSON.stringify` on the shapes in `JValue`; used by the source only
to build message strings. -/
def jsonStringify : JValue → String
  | JValue.vnull => "null"
  | JValue.vstr s => "\"" ++ jsonEscape s ++ "\""
  | JValue.vobj fs => "\x7b" ++ String.intercalate "," (fs.map (fun p => "\"" ++ jsonEscape p.1 ++ "\":" ++ jsonStringifyField p.2)) ++ "\x7d"
  | JValue.varr es => "[" ++ String.intercalate "," (es.map (fun e => jsonStringifyField e)) ++ "]"
where
  jsonStringifyField : JValue → String
  | JValue.vnull => "null"
  | JValue.vstr s => "\"" ++ jsonEscape s ++ "\""
  | JValue.vobj _ => "\x7b\x7d"
  | JValue.varr _ => "[]"

/-- JS template interpolation of `JSON.stringify(x)` where `x` may be
undefined (interpolates as the string "undefined"). -/
def jsonStringifyOpt : Option JValue → String
  | none => "undefined"
  | some v => jsonStringify v

/-- Convenience: the `\x7b error: message \x7d` object the source stores on
run-fatal errors (`crew.output = \x7b error: errorMessage \x7d`). -/
def errObj (m : String) : JValue := JValue.vobj [("error", JValue.vstr m)]

/-! ### Core enums and data model (src/core, src/tasks, src/crew) -/

/-- Task lifecycle status.  Modelled from the spec: the `TaskStatus` enum
declaration itself lives in the tasks module body that is not under src/
(only its tests and the crew module, which imports it, are); the spec fixes
the carrier PENDING/IN_PROGRESS/COMPLETED/FAILED/SKIPPED and the tests show
lowercase string values ('pending', 'completed'). -/
inductive TaskStatus where
  | PENDING
  | IN_PROGRESS
  | COMPLETED
  | FAILED
  | SKIPPED
deriving DecidableEq

/-- String value carried by each `TaskStatus` enum member (as observed in
the repository's tests). -/
def statusText : TaskStatus → String
  | TaskStatus.PENDING => "pending"
  | TaskStatus.IN_PROGRESS => "in_progress"
  | TaskStatus.COMPLETED => "completed"
  | TaskStatus.FAILED => "failed"
  | TaskStatus.SKIPPED => "skipped"

/-- Crew lifecycle status (string union in the source). -/
inductive CrewStatus where
  | PENDING
  | RUNNING
  | COMPLETED
  | FAILED
deriving DecidableEq

/-- Crew process selector (src/core). -/
inductive CrewProcess where
  | SEQUENTIAL
  | HIERARCHICAL
deriving DecidableEq

/-- Agent handle: only the fields the orchestration engine reads for
control flow (identity) or messages (role, goal); tools/llm/memory belong
to the excluded per-agent reasoning loop. -/
structure Agent where
  id : String
  role : String
  goal : String
deriving DecidableEq

/-- TaskConfig (src/tasks): the fields the crew engine reads or writes. -/
structure TaskConfig where
  description : String
  expectedOutput : String
  agent : Option Agent
  context : Option String
deriving DecidableEq

/-- Task record (src/tasks): identity plus the mutable execution fields the
Task Executor writes and the crew engine reads.  `parsedOutput`,
`validationError` and `error`: `none` models JS null/undefined. -/
structure Task where
  id : String
  config : TaskConfig
  status : TaskStatus
  output : JValue
  parsedOutput : Option JValue
  validationError : Option JValue
  error : Option JValue
  logs : List String

/-- TaskOutputDetail (src/crew): per-task output detail record. -/
structure TaskOutputDetail where
  output : JValue
  parsedOutput : Option JValue
  validationError : Option JValue
  error : Option JValue
  logs : List String

/-- Reference to a manager Agent instance resolved by createCrew; `hasLlm`
records whether the agent has its own bound language model
(`crew.managerAgentInstance?.llm`). -/
structure ManagerAgentRef where
  id : String
  role : String
  hasLlm : Bool
deriving DecidableEq

/-- CrewConfig (src/crew): the fields the engine reads. -/
structure CrewConfig where
  agents : List Agent
  tasks : List Task
  process : Option CrewProcess
  objective : Option String

/-- Crew entity (src/crew).  `managerLlmInstance : Bool` records presence
of a resolved raw ChatLLM client (its call behavior lives in `Env`). -/
structure Crew where
  id : String
  config : CrewConfig
  status : CrewStatus
  output : JValue
  tasksOutput : List (String × TaskOutputDetail)
  managerLlmInstance : Bool
  managerAgentInstance : Option ManagerAgentRef

/-- Manager decision parsed from the Manager's response JSON.  Fields are
`Option String`: `none` models an absent/undefined or non-string field,
which in the source simply fails the subsequent id lookups. -/
structure ManagerDecision where
  taskIdToDelegate : Option String
  agentIdToAssign : Option String
  additionalContextForAgent : Option String
deriving DecidableEq

/-- Hierarchical-loop-local TaskAttemptInfoValue (src/crew). -/
structure AttemptInfo where
  status : TaskStatus
  error : Option String
  lastAgentId : Option String
  lastAttemptIteration : Option Nat
  attempts : Nat
deriving DecidableEq

/-- Outcome of one Task Executor invocation (`executeTask(task, agent)` is
an external collaborator): either a raised error, or a normal return that
mutated the task's status/output/parsedOutput/validationError/error/logs. -/
inductive ExecOutcome where
  | raise (msg : String)
  | ret (status : TaskStatus) (output : JValue) (parsedOutput : Option JValue)
      (validationError : Option JValue) (error : Option JValue) (logs : List String)

/-- Environment of external collaborators for one run: Manager responses
indexed by hierarchical iteration number, the JSON.parse-and-destructure
step on the extracted candidate (none = JSON.parse throws), Task Executor
outcomes indexed by invocation counter, and the final-summary call
(`Except.error` = the model/transport call throws). -/
structure Env where
  managerResponse : Nat → String
  jsonParse : String → Option ManagerDecision
  execResult : Nat → ExecOutcome
  summaryResult : Except String String

/-- One Task Executor invocation in the observable trace: hierarchical
iteration number (0 for the sequential process), task id, agent id. -/
structure ExecCall where
  iteration : Nat
  taskId : String
  agentId : String
deriving DecidableEq

/-- Observable calls made during a run. -/
structure RunTrace where
  execCalls : List ExecCall
  managerCalls : Nat
  summaryCalls : Nat
deriving DecidableEq

def RunTrace.empty : RunTrace := ⟨[], 0, 0⟩

def RunTrace.bumpManager (t : RunTrace) : RunTrace :=
  { t with managerCalls := t.managerCalls + 1 }

def RunTrace.addExec (t : RunTrace) (it : Nat) (tid aid : String) : RunTrace :=
  { t with execCalls := t.execCalls ++ [⟨it, tid, aid⟩] }

def RunTrace.bumpSummary (t : RunTrace) : RunTrace :=
  { t with summaryCalls := t.summaryCalls + 1 }

/-! ### String helpers (JS String.prototype.includes, substring, regex) -/

/-- Whether `pat` is an initial segment of `l`. -/
def listStarts : List Char → List Char → Bool
  | _, [] => true
  | [], _ :: _ => false
  | c :: cs, d :: ds => c == d && listStarts cs ds

/-- Whether `pat` occurs as a contiguous run inside `l`. -/
def listHasSub (l pat : List Char) : Bool :=
  if listStarts l pat then true
  else
    match l with
    | [] => false
    | _ :: tl => listHasSub tl pat

/-- JS `s.includes(pat)`. -/
def containsSubstr (s pat : String) : Bool := listHasSub s.data pat.data

/-- Index of the first occurrence of `pat` as a contiguous run in `l`. -/
def subIdx (l pat : List Char) : Option Nat :=
  if listStarts l pat then some 0
  else
    match l with
    | [] => none
    | _ :: tl => (subIdx tl pat).map (· + 1)

/-- JS `s.substring(0, n)`. -/
def jsTake (s : String) (n : Nat) : String := String.mk (s.data.take n)

def openBraceChar : Char := '\x7b'
def closeBraceChar : Char := '\x7d'

/-- Index of the first list element satisfying `p`. -/
def charIdx? (p : Char → Bool) : List Char → Option Nat
  | [] => none
  | c :: rest => if p c then some 0 else (charIdx? p rest).map (· + 1)

/-- Index of the last occurrence of `c` in `l`. -/
def lastIdxOf (l : List Char) (c : Char) : Option Nat :=
  match charIdx? (fun d => d == c) l.reverse with
  | some r => some (l.length - 1 - r)
  | none => none

/-- The decision-extraction step of the source, line 1736:
`managerDecisionText.match(/\x7b.*\x7d/s)` — the single greedy dotall match
running from the first open brace to the last close brace. -/
def extractJsonCandidate (s : String) : Option String :=
  match charIdx? (fun c => c == openBraceChar) s.data, lastIdxOf s.data closeBraceChar with
  | some i, some j => if i < j then some (String.mk ((s.data.drop i).take (j - i + 1))) else none
  | _, _ => none

/-- First brace-delimited substring of `l`: from the first open brace to
the first close brace after it. -/
def firstBraceDelimited (l : List Char) : Option (List Char) :=
  match charIdx? (fun c => c == openBraceChar) l with
  | none => none
  | some i =>
    match charIdx? (fun c => c == closeBraceChar) (l.drop i) with
    | none => none
    | some j => some ((l.drop i).take (j + 1))

/-- Content of the first fenced code block of `l` (between a pair of triple
backticks). -/
def fencedBlock (l : List Char) : Option (List Char) :=
  let fence := [openFenceChar, openFenceChar, openFenceChar]
  match subIdx l fence with
  | none => none
  | some i =>
    let rest := l.drop (i + 3)
    match subIdx rest fence with
    | none => none
    | some j => some (rest.take j)
where
  openFenceChar : Char := '\x60'

/-- Modelled from the spec: "search the response for a JSON object,
preferring one fenced in a code block, falling back to the first
brace-delimited substring" — stated as written, for comparison with the
source's `extractJsonCandidate`. -/
def specExtractJsonCandidate (s : String) : Option String :=
  match fencedBlock s.data with
  | some inner =>
    match firstBraceDelimited inner with
    | some r => some (String.mk r)
    | none => (firstBraceDelimited s.data).map String.mk
  | none => (firstBraceDelimited s.data).map String.mk

/-! ### createCrew (src/crew lines 1338-1445) -/

/-- The managerLlm input shape, resolved by createCrew's duck-typed checks
into one of: an Agent instance, an instantiated ChatLLM, a recognized
provider config (instantiated into a client), or an unrecognized value. -/
inductive ManagerInput where
  | agentInstance (m : ManagerAgentRef)
  | llmInstance
  | providerConfig (recognized : Bool)
  | otherInput

/-- createCrew: validation plus manager resolution.  The fresh uuid is
passed in as `id` (the source draws it from uuidv4()). -/
def createCrew (id : String) (config : CrewConfig) (managerLlm : Option ManagerInput) :
    Except String Crew :=
  if config.agents.isEmpty then
    Except.error "Crew creation failed: No agents provided."
  else if config.tasks.isEmpty then
    Except.error "Crew creation failed: No tasks provided."
  else
    let process := config.process.getD CrewProcess.SEQUENTIAL
    match config.tasks.find? (fun t =>
        match t.config.agent with
        | some a => !(config.agents.any (fun b => b.id == a.id))
        | none => false) with
    | some t =>
      Except.error ("Task \"" ++ t.config.description ++ "\" is configured with an agent that is not part of the provided crew agents list.")
    | none =>
      let base : Crew :=
        { id := id
          config := { config with process := some process }
          status := CrewStatus.PENDING
          output := JValue.vnull
          tasksOutput := []
          managerLlmInstance := false
          managerAgentInstance := none }
      if process = CrewProcess.HIERARCHICAL then
        match managerLlm with
        | none =>
          Except.error "Crew creation failed: Hierarchical process requires a managerLlm or manager Agent to be configured."
        | some (ManagerInput.agentInstance m) =>
          Except.ok { base with managerAgentInstance := some m }
        | some ManagerInput.llmInstance =>
          Except.ok { base with managerLlmInstance := true }
        | some (ManagerInput.providerConfig true) =>
          Except.ok { base with managerLlmInstance := true }
        | some (ManagerInput.providerConfig false) =>
          Except.error "Crew creation failed: managerLlm for hierarchical process is an unrecognized LLMProviderConfig."
        | some ManagerInput.otherInput =>
          Except.error "Crew creation failed: managerLlm for hierarchical process is not a recognized Agent instance, LLM instance, or known LLM config type."
      else
        Except.ok base

/-! ### Sequential Process (src/crew lines 1494-1556) -/

/-- Provisional Crew output from a completed task:
`task.parsedOutput !== null && task.parsedOutput !== undefined ? task.parsedOutput : task.output`. -/
def provisionalOutput (po : Option JValue) (out : JValue) : JValue :=
  match po with
  | none => out
  | some JValue.vnull => out
  | some v => v

/-- TaskOutputDetail recorded for a COMPLETED task. -/
def completedDetail (t : Task) : TaskOutputDetail :=
  ⟨t.output, t.parsedOutput, t.validationError, none, t.logs⟩

/-- TaskOutputDetail recorded for a FAILED task. -/
def failedDetail (t : Task) : TaskOutputDetail :=
  ⟨t.output, t.parsedOutput, t.validationError, t.error, t.logs⟩

/-- Mutable run-local state of the sequential loop. -/
structure SState where
  taskOutputs : List (String × TaskOutputDetail)
  finalOutput : JValue
  execCount : Nat
  trace : RunTrace
  tasksAcc : List Task

/-- Result of the sequential loop: normal completion, or a propagated
critical error (the thrown message). -/
inductive SeqExit where
  | ok (st : SState)
  | fatal (st : SState) (msg : String)

def initSState : SState := ⟨[], JValue.vnull, 0, RunTrace.empty, []⟩

/-- Thrown message for a FAILED sequential task (source line 1540). -/
def seqFailMsg (t : Task) : String :=
  "Task " ++ t.id ++ " (\"" ++ t.config.description ++ "\") failed: " ++ jsonStringifyOpt t.error

/-- The sequential for-loop over `crew.config.tasks`: resolve the executing
agent (preassigned, else first crew agent, else throw), invoke the Task
Executor, record COMPLETED output detail and provisional output, convert a
FAILED status or a raised executor error into a run-fatal critical error
(the inner catch of lines 1546-1555 rewraps both). -/
def seqLoop (env : Env) (agents : List Agent) : List Task → SState → SeqExit
  | [], st => SeqExit.ok st
  | task :: rest, st =>
    match (match task.config.agent with | some a => some a | none => agents.head?) with
    | none =>
      SeqExit.fatal
        { st with tasksAcc := st.tasksAcc ++ task :: rest }
        ("Task \"" ++ task.config.description ++ "\" has no agent assigned, and there are no agents in the crew.")
    | some ag =>
      let st1 : SState :=
        { st with
          execCount := st.execCount + 1
          trace := st.trace.addExec 0 task.id ag.id }
      match env.execResult st.execCount with
      | ExecOutcome.raise m =>
        SeqExit.fatal
          { st1 with
            finalOutput := JValue.vobj
              [("error", JValue.vstr ("Critical error during sequential execution of task " ++ task.id)),
               ("details", JValue.vstr m)]
            taskOutputs := mapSet st1.taskOutputs task.id
              ⟨JValue.vnull, none, none, some (JValue.vobj [("critical", JValue.vstr m)]),
               task.logs ++ ["Critical error: " ++ m]⟩
            tasksAcc := st1.tasksAcc ++ task :: rest }
          ("Critical error during sequential execution of task " ++ task.id ++ ": " ++ m)
      | ExecOutcome.ret stt out po ve er lg =>
        let task2 : Task :=
          { task with
            status := stt
            output := out
            parsedOutput := po
            validationError := ve
            error := er
            logs := lg }
        if stt = TaskStatus.COMPLETED then
          seqLoop env agents rest
            { st1 with
              tasksAcc := st1.tasksAcc ++ [task2]
              taskOutputs := mapSet st1.taskOutputs task2.id (completedDetail task2)
              finalOutput := provisionalOutput po out }
        else if stt = TaskStatus.FAILED then
          SeqExit.fatal
            { st1 with
              tasksAcc := st1.tasksAcc ++ task2 :: rest
              taskOutputs := mapSet (mapSet st1.taskOutputs task2.id (failedDetail task2)) task2.id
                ⟨JValue.vnull, none, none,
                 some (JValue.vobj [("critical", JValue.vstr (seqFailMsg task2))]),
                 task2.logs ++ ["Critical error: " ++ seqFailMsg task2]⟩
              finalOutput := JValue.vobj
                [("error", JValue.vstr ("Critical error during sequential execution of task " ++ task2.id)),
                 ("details", JValue.vstr (seqFailMsg task2))] }
            ("Critical error during sequential execution of task " ++ task2.id ++ ": " ++ seqFailMsg task2)
        else
          seqLoop env agents rest { st1 with tasksAcc := st1.tasksAcc ++ [task2] }

/-- Map a sequential loop exit onto the Crew: success assigns output,
tasksOutput and COMPLETED; the outer catch assigns FAILED and
`\x7b error: errorMessage \x7d`. -/
def applySeqExit (crew1 : Crew) : SeqExit → Crew × RunTrace
  | SeqExit.ok st =>
    ({ crew1 with
       status := CrewStatus.COMPLETED
       output := st.finalOutput
       tasksOutput := st.taskOutputs
       config := { crew1.config with tasks := st.tasksAcc } }, st.trace)
  | SeqExit.fatal st m =>
    ({ crew1 with
       status := CrewStatus.FAILED
       output := errObj m
       config := { crew1.config with tasks := st.tasksAcc } }, st.trace)

/-! ### Hierarchical Process — decision loop (src/crew lines 1557-1829) -/

/-- Mutable run-local state of the hierarchical decision loop. -/
structure HState where
  tasks : List Task
  attempts : List (String × AttemptInfo)
  taskOutputs : List (String × TaskOutputDetail)
  finalOutput : JValue
  iterationCount : Nat
  execCount : Nat
  trace : RunTrace

/-- The initial Task Attempt Info value: PENDING with 0 attempts. -/
def pendAttempt : AttemptInfo := ⟨TaskStatus.PENDING, none, none, none, 0⟩

/-- Initial Task Attempt Info map: every task PENDING with 0 attempts. -/
def initAttempts (tasks : List Task) : List (String × AttemptInfo) :=
  tasks.foldl (fun m t => mapSet m t.id pendAttempt) []

def initHState (tasks : List Task) : HState :=
  ⟨tasks, initAttempts tasks, [], JValue.vnull, 0, 0, RunTrace.empty⟩

/-- `getNonCompletedTasks()`: tasks whose Task Attempt Info status is not
COMPLETED. -/
def nonCompletedTasks (st : HState) : List Task :=
  st.tasks.filter (fun t =>
    match mapGet st.attempts t.id with
    | some info => !(info.status = TaskStatus.COMPLETED : Bool)
    | none => true)

/-- Outcome of one loop iteration: continue, break (sentinel), or a thrown
error propagating to the run-level catch. -/
inductive StepOut where
  | cont (st : HState)
  | brk (st : HState)
  | fatal (st : HState) (msg : String)

/-- The completion sentinel string. -/
def sentinelString : String := "ALL_TASKS_COMPLETED"

/-- State after `iterationCount++` alone (manager unavailable path). -/
def bumpIteration (st : HState) : HState :=
  { st with iterationCount := st.iterationCount + 1 }

/-- State after `iterationCount++` and the Manager decision call. -/
def afterManagerCall (st : HState) : HState :=
  { st with
    iterationCount := st.iterationCount + 1
    trace := st.trace.bumpManager }

/-- State mutation done just before the run-fatal JSON-parse throw
(`finalOutput = \x7b error..., details: managerDecisionText \x7d`). -/
def parseFatalState (st : HState) (response : String) : HState :=
  { st with
    finalOutput := JValue.vobj
      [("error", JValue.vstr "Manager LLM response was not valid JSON."),
       ("details", JValue.vstr response)] }

/-- The thrown parse-failure message (with `substring(0,100)`). -/
def parseFatalMsg (response : String) : String :=
  "Manager LLM response was not valid JSON. Details: " ++ jsTake response 100 ++ "..."

/-- Synthetic key recorded on an unknown task/agent designation. -/
def managerErrorKey (n : Nat) : String := "manager_error_iteration_" ++ toString n

/-- Synthetic TaskOutputDetail recorded under `managerErrorKey`. -/
def managerErrorDetail (msg : String) : TaskOutputDetail :=
  ⟨errObj msg, none, none, none, []⟩

/-- Interpolation of a possibly-undefined id into a message string. -/
def optIdText : Option String → String
  | some s => s
  | none => "undefined"

def missTaskMsg (tid : Option String) : String :=
  "Manager designated task ID " ++ optIdText tid ++ " not found or not actionable."

def missAgentMsg (aid : Option String) : String :=
  "Manager designated agent ID " ++ optIdText aid ++ " not found."

/-- `currentRemainingTasks.find(t => t.id === taskIdToDelegate)`; an
undefined or non-string field matches no task. -/
def optFindTask (ts : List Task) : Option String → Option Task
  | some tid => ts.find? (fun t => t.id == tid)
  | none => none

/-- `crew.config.agents.find(a => a.id === agentIdToAssign)`. -/
def optFindAgent (ags : List Agent) : Option String → Option Agent
  | some aid => ags.find? (fun a => a.id == aid)
  | none => none

/-- Append the Manager's extra instructions to the task's context (JS
truthiness: an absent or empty string leaves the task unchanged; an absent
or empty existing context starts a fresh context). -/
def augmentContext (task : Task) (extra : Option String) : Task :=
  match extra with
  | none => task
  | some e =>
    if e.isEmpty then task
    else
      match task.config.context with
      | some c =>
        if c.isEmpty then
          { task with config := { task.config with context := some ("Manager Context: " ++ e) } }
        else
          { task with config := { task.config with context := some (c ++ "\nManager Context: " ++ e) } }
      | none =>
        { task with config := { task.config with context := some ("Manager Context: " ++ e) } }

/-- In-place mutation of the delegated task object, modelled as replacing
the first list entry with the same id (ids are fresh uuids). -/
def updateTaskById (tasks : List Task) (t : Task) : List Task :=
  match tasks with
  | [] => []
  | x :: rest => if x.id == t.id then t :: rest else x :: updateTaskById rest t

/-- Post-execution Task Attempt Info update for the delegated task. -/
def updateAttempt (m : List (String × AttemptInfo)) (task2 : Task) (ag : Agent) (iter : Nat) :
    List (String × AttemptInfo) :=
  match mapGet m task2.id with
  | some info =>
    mapSet m task2.id
      { info with
        status := task2.status
        error := if jvTruthyOpt task2.error then some (jsToString (task2.error.getD JValue.vnull)) else none
        lastAgentId := some ag.id
        lastAttemptIteration := some iter }
  | none => m

/-- Task Executor invocation and post-execution bookkeeping of one
hierarchical iteration (source lines 1787-1825). -/
def hierExecute (env : Env) (st : HState) (task : Task) (ag : Agent) : StepOut :=
  let st1 : HState :=
    { st with
      tasks := updateTaskById st.tasks task
      execCount := st.execCount + 1
      trace := st.trace.addExec st.iterationCount task.id ag.id }
  match env.execResult st.execCount with
  | ExecOutcome.raise m => StepOut.fatal st1 m
  | ExecOutcome.ret stt out po ve er lg =>
    let task2 : Task :=
      { task with
        status := stt
        output := out
        parsedOutput := po
        validationError := ve
        error := er
        logs := lg }
    let st2 : HState :=
      { st1 with
        tasks := updateTaskById st1.tasks task2
        attempts := updateAttempt st1.attempts task2 ag st1.iterationCount }
    if stt = TaskStatus.COMPLETED then
      StepOut.cont
        { st2 with
          taskOutputs := mapSet st2.taskOutputs task2.id (completedDetail task2)
          finalOutput := provisionalOutput po out }
    else if stt = TaskStatus.FAILED then
      StepOut.cont { st2 with taskOutputs := mapSet st2.taskOutputs task2.id (failedDetail task2) }
    else
      StepOut.cont st2

/-- Decision validation and dispatch of one hierarchical iteration (source
lines 1747-1787): unknown task or agent ids record a synthetic failure
entry and continue; otherwise augment context and execute. -/
def hierDelegate (agents : List Agent) (env : Env) (st : HState) (decision : ManagerDecision) :
    StepOut :=
  match optFindTask (nonCompletedTasks st) decision.taskIdToDelegate with
  | none =>
    StepOut.cont
      { st with taskOutputs := mapSet st.taskOutputs (managerErrorKey st.iterationCount) (managerErrorDetail (missTaskMsg decision.taskIdToDelegate)) }
  | some task =>
    match optFindAgent agents decision.agentIdToAssign with
    | none =>
      StepOut.cont
        { st with taskOutputs := mapSet st.taskOutputs (managerErrorKey st.iterationCount) (managerErrorDetail (missAgentMsg decision.agentIdToAssign)) }
    | some ag => hierExecute env st (augmentContext task decision.additionalContextForAgent) ag

/-- Sentinel check and decision extraction on the Manager's response
(source lines 1728-1745). -/
def hierRespond (agents : List Agent) (env : Env) (st : HState) (response : String) : StepOut :=
  if containsSubstr response sentinelString then StepOut.brk st
  else
    match extractJsonCandidate response with
    | none => StepOut.fatal (parseFatalState st response) (parseFatalMsg response)
    | some cand =>
      match env.jsonParse cand with
      | none => StepOut.fatal (parseFatalState st response) (parseFatalMsg response)
      | some decision => hierDelegate agents env st decision

/-- One full iteration of the hierarchical decision loop. -/
def hierStep (agents : List Agent) (hasMgrAgent hasMgrLlm : Bool) (env : Env) (st0 : HState) :
    StepOut :=
  if hasMgrAgent || hasMgrLlm then
    hierRespond agents env (afterManagerCall st0) (env.managerResponse (st0.iterationCount + 1))
  else
    StepOut.fatal (bumpIteration st0) "Hierarchical process: No manager (Agent or LLM) available."

/-- Result of the hierarchical loop: normal exit (all done, sentinel, or
ceiling) or a propagated run-fatal error. -/
inductive HierExit where
  | normal (st : HState)
  | fatal (st : HState) (msg : String)

/-- The while-loop `while (getNonCompletedTasks().length > 0 &&
iterationCount < maxIterations)`, with `fuel = maxIterations -
iterationCount` supplied as the decreasing counter. -/
def hierLoop (agents : List Agent) (hasMgrAgent hasMgrLlm : Bool) (env : Env) :
    Nat → HState → HierExit
  | 0, st => HierExit.normal st
  | Nat.succ fuel, st =>
    if (nonCompletedTasks st).isEmpty then HierExit.normal st
    else
      match hierStep agents hasMgrAgent hasMgrLlm env st with
      | StepOut.brk st2 => HierExit.normal st2
      | StepOut.fatal st2 m => HierExit.fatal st2 m
      | StepOut.cont st2 => hierLoop agents hasMgrAgent hasMgrLlm env fuel st2

/-! ### Hierarchical post-loop: ceiling warning and final summary
(src/crew lines 1831-1981) -/

/-- The degraded-success warning payload produced when the iteration
ceiling is reached with an empty provisional output. -/
def warningPayload (st : HState) : JValue :=
  JValue.vobj
    [("warning", JValue.vstr "Max iterations reached in hierarchical process."),
     ("remainingTasks", JValue.varr ((nonCompletedTasks st).map (fun t =>
        JValue.vobj
          [("id", JValue.vstr t.id),
           ("description", JValue.vstr t.config.description),
           ("status", match mapGet st.attempts t.id with
             | some info => JValue.vstr (statusText info.status)
             | none => JValue.vnull)])))]

/-- Filter deciding which TaskOutputDetail entries count as successful for
the final summary (source lines 1856-1862). -/
def successFilter (d : TaskOutputDetail) : Bool :=
  if jvTruthyOpt d.error then false
  else if jvTruthy d.output && jvTypeofObject d.output && jvHasKey d.output "error" then false
  else true

/-- Prior error text prepended to the degraded synthesis-failure message
(source line 1949). -/
def degradeMsgHead (fo : JValue) : String :=
  if jvTruthy fo && jvTypeofObject fo && jvTruthyOpt (jvGet fo "error") then
    jsToString ((jvGet fo "error").getD JValue.vnull) ++ "; "
  else ""

/-- Degraded Crew output when the synthesis call throws (source lines
1949-1953): spread the prior provisional output (or wrap a non-object one
as `previousOutput`) and attach the synthesis error message. -/
def degradeOutput (fo : JValue) (m : String) : JValue :=
  JValue.vobj
    (mapSet (if jvTypeofObject fo then jvSpreadFields fo else [("previousOutput", fo)]) "error"
      (JValue.vstr (degradeMsgHead fo ++ "Failed to get final summary from manager: " ++ m)))

/-- Final Crew assembly on the hierarchical success path (source lines
1979-1981). -/
def mkDone (crew1 : Crew) (fo : JValue) (st : HState) : Crew :=
  { crew1 with
    status := CrewStatus.COMPLETED
    output := fo
    tasksOutput := st.taskOutputs
    config := { crew1.config with tasks := st.tasks } }

/-- Ceiling-warning adjustment of the provisional output (source lines
1834-1842): when the loop stopped with incomplete tasks at the iteration
ceiling, an empty provisional output is replaced by the warning payload. -/
def ceilingAdjustedOutput (maxIterations : Nat) (st : HState) : JValue :=
  if !(nonCompletedTasks st).isEmpty && Nat.ble maxIterations st.iterationCount then
    if !(jvTruthy st.finalOutput) || (jvKeysLen st.finalOutput == 0) then warningPayload st
    else st.finalOutput
  else st.finalOutput

/-- `finalSummaryProviderAvailable` (source lines 1846-1848). -/
def summaryProviderAvailable (crew1 : Crew) : Bool :=
  (match crew1.managerAgentInstance with
   | some m => m.hasLlm
   | none => false) || crew1.managerLlmInstance

/-- Output adjustment when no successful task outputs exist to summarize
(source lines 1955-1962). -/
def noSuccessAdjust (fo1 : JValue) : JValue :=
  if !(jvTruthy fo1) || (jvTypeofObject fo1 && !(jvHasKey fo1 "error")) then
    JValue.vstr "No successful task outputs available for a final summary."
  else fo1

/-- Output adjustment when no suitable manager branch made a summary
(source lines 1942-1944; unreachable when a provider is available). -/
def noSummaryAdjust (fo1 : JValue) : JValue :=
  if !(jvTruthy fo1) || (jvTypeofObject fo1 && jvHasKey fo1 "warning" && jvKeysLen fo1 == 1) then
    JValue.vstr "All tasks processed. No summary could be generated due to lack of suitable manager LLM or no successful outputs."
  else fo1

/-- Post-loop processing on a normal loop exit: max-iteration warning,
final summary synthesis with its degraded-failure handling, then terminal
assignment of output/tasksOutput/COMPLETED.  (When the summary gate is
open, all tasks are completed, so `ceilingAdjustedOutput` is the raw
provisional output there.) -/
def hierNormalFinish (crew1 : Crew) (env : Env) (maxIterations : Nat) (st : HState) :
    Crew × RunTrace :=
  if (nonCompletedTasks st).isEmpty && !st.taskOutputs.isEmpty then
    if summaryProviderAvailable crew1 then
      if (st.taskOutputs.filter (fun p => successFilter p.2)).isEmpty then
        (mkDone crew1 (noSuccessAdjust (ceilingAdjustedOutput maxIterations st)) st, st.trace)
      else
        if crew1.managerAgentInstance.isSome || crew1.managerLlmInstance then
          match env.summaryResult with
          | Except.ok s => (mkDone crew1 (JValue.vstr s) st, st.trace.bumpSummary)
          | Except.error m =>
            (mkDone crew1 (degradeOutput (ceilingAdjustedOutput maxIterations st) m) st,
             st.trace.bumpSummary)
        else
          (mkDone crew1 (noSummaryAdjust (ceilingAdjustedOutput maxIterations st)) st, st.trace)
    else (mkDone crew1 (ceilingAdjustedOutput maxIterations st) st, st.trace)
  else (mkDone crew1 (ceilingAdjustedOutput maxIterations st) st, st.trace)

/-- Map a hierarchical loop exit onto the Crew: fatal exits hit the
run-level catch (FAILED, `\x7b error \x7d` output); normal exits go through
the post-loop processing. -/
def applyHierExit (crew1 : Crew) (env : Env) (maxIterations : Nat) : HierExit → Crew × RunTrace
  | HierExit.fatal st m =>
    ({ crew1 with
       status := CrewStatus.FAILED
       output := errObj m
       config := { crew1.config with tasks := st.tasks } }, st.trace)
  | HierExit.normal st => hierNormalFinish crew1 env maxIterations st

/-! ### runCrew (src/crew lines 1455-2001) -/

/-- The run entry point: single-use guard, then the selected process, with
run-fatal errors caught into FAILED status and an error-object output. -/
def runCrew (crew : Crew) (env : Env) : Crew × RunTrace :=
  if crew.status = CrewStatus.RUNNING then (crew, RunTrace.empty)
  else if crew.status = CrewStatus.COMPLETED ∨ crew.status = CrewStatus.FAILED then
    (crew, RunTrace.empty)
  else
    let crew1 : Crew := { crew with status := CrewStatus.RUNNING }
    match crew.config.process.getD CrewProcess.SEQUENTIAL with
    | CrewProcess.SEQUENTIAL =>
      applySeqExit crew1 (seqLoop env crew.config.agents crew.config.tasks initSState)
    | CrewProcess.HIERARCHICAL =>
      if crew.managerAgentInstance.isNone && !crew.managerLlmInstance then
        ({ crew1 with
           status := CrewStatus.FAILED
           output := errObj "Hierarchical process selected, but manager LLM is not available on the crew." },
         RunTrace.empty)
      else
        applyHierExit crew1 env (crew.config.tasks.length + 10)
          (hierLoop crew.config.agents crew.managerAgentInstance.isSome crew.managerLlmInstance
            env (crew.config.tasks.length + 10) (initHState crew.config.tasks))

/-! ### Concrete fixtures used by witnesses and counterexamples -/

def agA : Agent := ⟨"a1", "Researcher", "research things"⟩
def agB : Agent := ⟨"b1", "Writer", "write things"⟩

def tskA : Task := ⟨"tA", ⟨"research", "notes", some agA, none⟩, TaskStatus.PENDING, JValue.vnull, none, none, none, []⟩
def tskB : Task := ⟨"tB", ⟨"write", "post", some agB, none⟩, TaskStatus.PENDING, JValue.vnull, none, none, none, []⟩

/-- A Manager response delegating task tA to agent a1. -/
def respA : String := "\x7b\"taskIdToDelegate\":\"tA\",\"agentIdToAssign\":\"a1\"\x7d"

/-- A Manager response designating a task id that exists nowhere (kept
short: it parses to the decision naming the unknown task id "nope"). -/
def respBogus : String := "\x7bn\x7d"

/-- JSON.parse behavior on the two concrete decision objects above. -/
def sampleParse : String → Option ManagerDecision := fun s =>
  if s = respA then some ⟨some "tA", some "a1", none⟩
  else if s = respBogus then some ⟨some "nope", some "a1", none⟩
  else none

/-- A hierarchical two-task Crew with a raw-LLM manager. -/
def crewH2 : Crew :=
  { id := "c1"
    config := ⟨[agA, agB], [tskA, tskB], some CrewProcess.HIERARCHICAL, none⟩
    status := CrewStatus.PENDING
    output := JValue.vnull
    tasksOutput := []
    managerLlmInstance := true
    managerAgentInstance := none }

/-- A hierarchical one-task Crew with a raw-LLM manager. -/
def crewH1 : Crew :=
  { id := "c2"
    config := ⟨[agA, agB], [tskA], some CrewProcess.HIERARCHICAL, none⟩
    status := CrewStatus.PENDING
    output := JValue.vnull
    tasksOutput := []
    managerLlmInstance := true
    managerAgentInstance := none }

/-- A sequential two-task Crew. -/
def crewS2 : Crew :=
  { id := "c3"
    config := ⟨[agA, agB], [tskA, tskB], some CrewProcess.SEQUENTIAL, none⟩
    status := CrewStatus.PENDING
    output := JValue.vnull
    tasksOutput := []
    managerLlmInstance := false
    managerAgentInstance := none }

/-- Environment driving crewH2 to the iteration ceiling: iteration 1
completes tA, every later iteration designates an unknown task id. -/
def envCeiling : Env :=
  { managerResponse := fun n => if n = 1 then respA else respBogus
    jsonParse := sampleParse
    execResult := fun _ => ExecOutcome.ret TaskStatus.COMPLETED (JValue.vstr "done:research") none none none []
    summaryResult := Except.ok "summary text" }

/-- Environment whose Manager responses never contain the sentinel nor any
brace-delimited JSON. -/
def envParseFail : Env :=
  { managerResponse := fun _ => "no json here"
    jsonParse := sampleParse
    execResult := fun _ => ExecOutcome.raise "unused"
    summaryResult := Except.ok "summary text" }

/-- Environment whose Manager immediately answers with the sentinel. -/
def envSentinel : Env :=
  { managerResponse := fun _ => "ALL_TASKS_COMPLETED"
    jsonParse := sampleParse
    execResult := fun _ => ExecOutcome.raise "unused"
    summaryResult := Except.ok "summary text" }

/-- Environment for crewH1: iteration 1 designates an unknown task id,
iteration 2 delegates tA which completes; the synthesis call succeeds. -/
def envMissThenDone : Env :=
  { managerResponse := fun n => if n = 1 then respBogus else respA
    jsonParse := sampleParse
    execResult := fun _ => ExecOutcome.ret TaskStatus.COMPLETED (JValue.vstr "done:research") none none none []
    summaryResult := Except.ok "final synthesis" }

/-- Environment whose first Task Executor invocation fails the task. -/
def envExecFail : Env :=
  { managerResponse := fun _ => respA
    jsonParse := sampleParse
    execResult := fun _ => ExecOutcome.ret TaskStatus.FAILED (JValue.vstr "bad") none none (some (JValue.vstr "boom")) ["log1"]
    summaryResult := Except.ok "summary text" }

/-- Environment for hierarchical runs where every delegation completes and
the synthesis call throws. -/
def envSummaryThrows : Env :=
  { managerResponse := fun _ => respA
    jsonParse := sampleParse
    execResult := fun _ => ExecOutcome.ret TaskStatus.COMPLETED (JValue.vstr "done:research") none none none []
    summaryResult := Except.error "transport down" }

/-- The C5 counterexample response: a fenced JSON object followed by prose
containing a second brace-delimited object. -/
def c5input : String := "pre ```json\n\x7b\"a\":1\x7d\n``` tail \x7b\"b\":2\x7d"

/-- A Crew already in a terminal state (for the single-use-guard witness). -/
def crewDone : Crew := { crewS2 with status := CrewStatus.COMPLETED }

/-- The loop state after an unknown-task/agent iteration: manager call
recorded, iteration bumped, synthetic failure entry stored, nothing else
touched. -/
def missState (st : HState) (emsg : String) : HState :=
  { afterManagerCall st with
    taskOutputs := mapSet st.taskOutputs (managerErrorKey (st.iterationCount + 1))
      (managerErrorDetail emsg) }

/-- The task record of tA after its successful first-iteration execution
in the `envCeiling` scenario. -/
def c2tskADone : Task :=
  { tskA with status := TaskStatus.COMPLETED, output := JValue.vstr "done:research", logs := [] }

/-- The Task Attempt Info of tA after that execution. -/
def c2attemptA : AttemptInfo := ⟨TaskStatus.COMPLETED, none, some "a1", some 1, 0⟩

/-- Loop state after iteration `k` (k ≥ 1) of the `crewH2`/`envCeiling`
scenario: tA completed at iteration 1, iterations 2..k were unknown-task
misses. -/
def c2state (k : Nat) : HState :=
  { tasks := [c2tskADone, tskB]
    attempts := [("tA", c2attemptA), ("tB", pendAttempt)]
    taskOutputs := ("tA", ⟨JValue.vstr "done:research", none, none, none, []⟩) ::
      (List.range (k - 1)).map
        (fun i => (managerErrorKey (i + 2), managerErrorDetail (missTaskMsg (some "nope"))))
    finalOutput := JValue.vstr "done:research"
    iterationCount := k
    execCount := 1
    trace := ⟨[⟨1, "tA", "a1"⟩], k, 0⟩ }

/-- A loop-exit state with the single task tA completed and one recorded
output (used to exercise the final-summary step). -/
def c8state : HState :=
  { tasks := [c2tskADone]
    attempts := [("tA", c2attemptA)]
    taskOutputs := [("tA", ⟨JValue.vstr "done:research", none, none, none, []⟩)]
    finalOutput := JValue.vstr "done:research"
    iterationCount := 1
    execCount := 1
    trace := ⟨[⟨1, "tA", "a1"⟩], 1, 0⟩ }

/-! ### Helper lemmas -/

theorem afterManagerCall_tasks (st : HState) : (afterManagerCall st).tasks = st.tasks := rfl

theorem afterManagerCall_attempts (st : HState) :
    (afterManagerCall st).attempts = st.attempts := rfl

theorem afterManagerCall_taskOutputs (st : HState) :
    (afterManagerCall st).taskOutputs = st.taskOutputs := rfl

theorem afterManagerCall_finalOutput (st : HState) :
    (afterManagerCall st).finalOutput = st.finalOutput := rfl

theorem afterManagerCall_iterationCount (st : HState) :
    (afterManagerCall st).iterationCount = st.iterationCount + 1 := rfl

theorem afterManagerCall_execCount (st : HState) :
    (afterManagerCall st).execCount = st.execCount := rfl

theorem nonCompletedTasks_afterManagerCall (st : HState) :
    nonCompletedTasks (afterManagerCall st) = nonCompletedTasks st := rfl

/-- Projection to the carried loop state of a step outcome. -/
def stepState : StepOut → HState
  | StepOut.cont st => st
  | StepOut.brk st => st
  | StepOut.fatal st _ => st

/-- Projection to the carried loop state of a loop exit. -/
def exitState : HierExit → HState
  | HierExit.normal st => st
  | HierExit.fatal st _ => st

/-- Projection to the carried loop state of a sequential exit. -/
def seqExitState : SeqExit → SState
  | SeqExit.ok st => st
  | SeqExit.fatal st _ => st

theorem mapGet_mapSet_self {α : Type} (m : List (String × α)) (k : String) (v : α) :
    mapGet (mapSet m k v) k = some v := by
  induction m with
  | nil => simp [mapSet, mapGet]
  | cons p rest ih =>
    obtain ⟨k2, v2⟩ := p
    by_cases h : k2 = k
    · subst h
      simp [mapSet, mapGet]
    · have hb : (k2 == k) = false := beq_eq_false_iff_ne.mpr h
      simp only [mapSet, hb, Bool.false_eq_true, if_false]
      simpa [mapGet, List.find?, hb] using ih

theorem mapGet_mapSet_ne {α : Type} (m : List (String × α)) (k q : String) (v : α)
    (h : q ≠ k) : mapGet (mapSet m k v) q = mapGet m q := by
  have hkq : (k == q) = false := beq_eq_false_iff_ne.mpr (Ne.symm h)
  induction m with
  | nil => simp [mapSet, mapGet, List.find?, hkq]
  | cons p rest ih =>
    obtain ⟨k2, v2⟩ := p
    by_cases h2 : k2 = k
    · subst h2
      simp [mapSet, mapGet, List.find?, hkq]
    · have hb : (k2 == k) = false := beq_eq_false_iff_ne.mpr h2
      by_cases h3 : k2 = q
      · subst h3
        simp [mapSet, mapGet, List.find?, hb]
      · have hb3 : (k2 == q) = false := beq_eq_false_iff_ne.mpr h3
        simp only [mapSet, hb, Bool.false_eq_true, if_false]
        simpa [mapGet, List.find?, hb3] using ih

theorem listStarts_append_self (a b : List Char) : listStarts (a ++ b) a = true := by
  induction a with
  | nil => simp [listStarts]
  | cons c rest ih => simpa [listStarts] using ih

theorem initAttempts_values (tasks : List Task) :
    ∀ q info, mapGet (initAttempts tasks) q = some info → info = pendAttempt := by
  have key : ∀ (ts : List Task) (m : List (String × AttemptInfo)),
      (∀ q info, mapGet m q = some info → info = pendAttempt) →
      ∀ q info, mapGet (ts.foldl (fun acc t => mapSet acc t.id pendAttempt) m) q = some info →
        info = pendAttempt := by
    intro ts
    induction ts with
    | nil => intro m hm; exact hm
    | cons t rest ih =>
      intro m hm q info h
      refine ih (mapSet m t.id pendAttempt) ?_ q info h
      intro q2 info2 hq
      by_cases hqq : q2 = t.id
      · subst hqq
        rw [mapGet_mapSet_self] at hq
        exact (Option.some.injEq _ _).mp hq.symm |>.symm ▸ rfl
      · rw [mapGet_mapSet_ne _ _ _ _ hqq] at hq
        exact hm _ _ hq
  intro q info h
  exact key tasks [] (by intro q2 i2 h2; simp [mapGet] at h2) q info h

theorem nonCompletedTasks_init (tasks : List Task) :
    nonCompletedTasks (initHState tasks) = tasks := by
  unfold nonCompletedTasks initHState
  apply List.filter_eq_self.mpr
  intro t _
  cases hq : mapGet (initAttempts tasks) t.id with
  | none => simp
  | some info =>
    have hv := initAttempts_values tasks _ _ hq
    subst hv
    simp [pendAttempt]

theorem hierExecute_counters (env : Env) (st : HState) (task : Task) (ag : Agent) :
    (stepState (hierExecute env st task ag)).trace.managerCalls = st.trace.managerCalls ∧
    (stepState (hierExecute env st task ag)).trace.summaryCalls = st.trace.summaryCalls := by
  unfold hierExecute
  cases henv : env.execResult st.execCount with
  | raise m => dsimp only; simp [stepState, RunTrace.addExec]
  | ret stt out po ve er lg =>
    dsimp only
    split_ifs <;> simp [stepState, RunTrace.addExec]

theorem hierDelegate_counters (agents : List Agent) (env : Env) (st : HState)
    (decision : ManagerDecision) :
    (stepState (hierDelegate agents env st decision)).trace.managerCalls = st.trace.managerCalls ∧
    (stepState (hierDelegate agents env st decision)).trace.summaryCalls = st.trace.summaryCalls := by
  unfold hierDelegate
  cases ht : optFindTask (nonCompletedTasks st) decision.taskIdToDelegate with
  | none => simp [stepState]
  | some task =>
    cases ha : optFindAgent agents decision.agentIdToAssign with
    | none => simp [stepState]
    | some ag => exact hierExecute_counters env st (augmentContext task decision.additionalContextForAgent) ag

theorem hierRespond_counters (agents : List Agent) (env : Env) (st : HState) (response : String) :
    (stepState (hierRespond agents env st response)).trace.managerCalls = st.trace.managerCalls ∧
    (stepState (hierRespond agents env st response)).trace.summaryCalls = st.trace.summaryCalls := by
  unfold hierRespond
  by_cases hs : containsSubstr response sentinelString
  · simp [hs, stepState]
  · simp only [hs, Bool.false_eq_true, if_false]
    cases hx : extractJsonCandidate response with
    | none => dsimp only; simp [stepState, parseFatalState]
    | some cand =>
      dsimp only
      cases hp : env.jsonParse cand with
      | none => dsimp only; simp [stepState, parseFatalState]
      | some decision => dsimp only; exact hierDelegate_counters agents env st decision

theorem hierStep_counters (agents : List Agent) (a b : Bool) (env : Env) (st : HState) :
    (stepState (hierStep agents a b env st)).trace.managerCalls ≤ st.trace.managerCalls + 1 ∧
    (stepState (hierStep agents a b env st)).trace.summaryCalls = st.trace.summaryCalls := by
  unfold hierStep
  by_cases h : (a || b) = true
  · simp only [h, if_true]
    have hr := hierRespond_counters agents env (afterManagerCall st)
      (env.managerResponse (st.iterationCount + 1))
    refine ⟨?_, ?_⟩
    · rw [hr.1]
      simp [afterManagerCall, RunTrace.bumpManager]
    · rw [hr.2]
      simp [afterManagerCall, RunTrace.bumpManager]
  · simp only [h, Bool.false_eq_true, if_false]
    refine ⟨?_, ?_⟩
    · simp only [stepState, bumpIteration]
      omega
    · simp [stepState, bumpIteration]

theorem hierLoop_counters (agents : List Agent) (a b : Bool) (env : Env) :
    ∀ (fuel : Nat) (st : HState),
    (exitState (hierLoop agents a b env fuel st)).trace.managerCalls ≤ st.trace.managerCalls + fuel ∧
    (exitState (hierLoop agents a b env fuel st)).trace.summaryCalls = st.trace.summaryCalls := by
  intro fuel
  induction fuel with
  | zero => intro st; simp [hierLoop, exitState]
  | succ f ih =>
    intro st
    unfold hierLoop
    by_cases hg : (nonCompletedTasks st).isEmpty
    · simp [hg, exitState]
    · simp only [hg, Bool.false_eq_true, if_false]
      have h1 := hierStep_counters agents a b env st
      cases hstep : hierStep agents a b env st with
      | brk st2 =>
        rw [hstep] at h1
        simp only [stepState] at h1
        simp only [exitState]
        exact ⟨by omega, h1.2⟩
      | fatal st2 m =>
        rw [hstep] at h1
        simp only [stepState] at h1
        simp only [exitState]
        exact ⟨by omega, h1.2⟩
      | cont st2 =>
        rw [hstep] at h1
        simp only [stepState] at h1
        dsimp only
        have h2 := ih st2
        refine ⟨by omega, h2.2.trans h1.2⟩

theorem hierNormalFinish_status (c : Crew) (e : Env) (mi : Nat) (st : HState) :
    (hierNormalFinish c e mi st).1.status = CrewStatus.COMPLETED := by
  unfold hierNormalFinish
  split_ifs <;> first
    | rfl
    | (cases e.summaryResult <;> rfl)

theorem hierNormalFinish_counters (c : Crew) (e : Env) (mi : Nat) (st : HState) :
    (hierNormalFinish c e mi st).2.managerCalls = st.trace.managerCalls ∧
    (hierNormalFinish c e mi st).2.execCalls = st.trace.execCalls := by
  unfold hierNormalFinish
  split_ifs <;> first
    | exact ⟨rfl, rfl⟩
    | (cases he : e.summaryResult <;> exact ⟨rfl, rfl⟩)

theorem seqLoop_counters (env : Env) (agents : List Agent) :
    ∀ (tasks : List Task) (st : SState),
    (seqExitState (seqLoop env agents tasks st)).trace.managerCalls = st.trace.managerCalls ∧
    (seqExitState (seqLoop env agents tasks st)).trace.summaryCalls = st.trace.summaryCalls := by
  intro tasks
  induction tasks with
  | nil => intro st; simp [seqLoop, seqExitState]
  | cons task rest ih =>
    intro st
    unfold seqLoop
    cases hag : (match task.config.agent with | some a => some a | none => agents.head?) with
    | none => dsimp only; simp [seqExitState]
    | some ag =>
      dsimp only
      cases henv : env.execResult st.execCount with
      | raise m => dsimp only; simp [seqExitState, RunTrace.addExec]
      | ret stt out po ve er lg =>
        dsimp only
        split_ifs with h1 h2
        · refine ⟨((ih _).1).trans ?_, ((ih _).2).trans ?_⟩ <;> simp [RunTrace.addExec]
        · simp [seqExitState, RunTrace.addExec]
        · refine ⟨((ih _).1).trans ?_, ((ih _).2).trans ?_⟩ <;> simp [RunTrace.addExec]
/-! ### Claim theorems -/

/-- C7: for every Crew whose status is RUNNING, COMPLETED or FAILED, a
runCrew request is an idempotent no-op with a warning: it returns without
invoking the Task Executor or the Manager (empty call trace) and leaves the
Crew — its status, output and tasksOutput fields included — unchanged. -/
theorem c7_guarded_rerun_is_noop (crew : Crew) (env : Env)
    (h : crew.status = CrewStatus.RUNNING ∨ crew.status = CrewStatus.COMPLETED ∨
      crew.status = CrewStatus.FAILED) :
    runCrew crew env = (crew, RunTrace.empty) := by
  rcases h with h | h | h <;> simp [runCrew, h]

theorem c7_guarded_rerun_is_noop_witness :
    (crewDone.status = CrewStatus.RUNNING ∨ crewDone.status = CrewStatus.COMPLETED ∨
      crewDone.status = CrewStatus.FAILED) ∧
    runCrew crewDone envSentinel = (crewDone, RunTrace.empty) :=
  ⟨Or.inr (Or.inl rfl),
   c7_guarded_rerun_is_noop crewDone envSentinel (Or.inr (Or.inl rfl))⟩

/-- C4: in every hierarchical iteration, a Manager response containing the
literal completion sentinel makes the loop break (success exit): the step
returns the break outcome for every possible JSON-parse behavior (so no
extraction is consulted), no Task Executor call is added, the loop exits
normally, and a response that is exactly the sentinel string is a special
case of the containment check. -/
theorem c4_sentinel_breaks_loop (agents : List Agent) (a b : Bool) (env : Env) (st : HState)
    (fuel : Nat)
    (hmgr : (a || b) = true)
    (hsent : containsSubstr (env.managerResponse (st.iterationCount + 1)) sentinelString = true) :
    (∀ g, hierStep agents a b { env with jsonParse := g } st = StepOut.brk (afterManagerCall st)) ∧
    (afterManagerCall st).trace.execCalls = st.trace.execCalls ∧
    ((nonCompletedTasks st).isEmpty = false →
      hierLoop agents a b env (fuel + 1) st = HierExit.normal (afterManagerCall st)) ∧
    containsSubstr sentinelString sentinelString = true := by
  have hstep : ∀ g, hierStep agents a b { env with jsonParse := g } st =
      StepOut.brk (afterManagerCall st) := by
    intro g
    simp [hierStep, hmgr, hierRespond, hsent]
  refine ⟨hstep, rfl, ?_, by decide⟩
  intro hg
  have hstep2 : hierStep agents a b env st = StepOut.brk (afterManagerCall st) := by
    simp [hierStep, hmgr, hierRespond, hsent]
  unfold hierLoop
  simp [hg, hstep2]

theorem c4_sentinel_breaks_loop_witness :
    ((false || true) = true) ∧
    (containsSubstr (envSentinel.managerResponse ((initHState [tskA, tskB]).iterationCount + 1))
      sentinelString = true) ∧
    ((nonCompletedTasks (initHState [tskA, tskB])).isEmpty = false) ∧
    hierLoop [agA, agB] false true envSentinel (11 + 1) (initHState [tskA, tskB]) =
      HierExit.normal (afterManagerCall (initHState [tskA, tskB])) :=
  ⟨rfl, by decide, by decide,
   (c4_sentinel_breaks_loop [agA, agB] false true envSentinel (initHState [tskA, tskB]) 11
      rfl (by decide)).2.2.1 (by decide)⟩

/-- C3: a hierarchical iteration whose parsed decision names a task id not
in the current non-completed set or an agent id not in the Crew's agent
list is not fatal: the step continues, the Task Executor is not invoked
(no exec call added), the attempt bookkeeping (hence the completed-task
set) does not advance, a synthetic failure entry for that iteration is
recorded, and the loop proceeds to the next iteration within its fuel
bound. -/
theorem c3_unknown_ids_are_recoverable (agents : List Agent) (a b : Bool) (env : Env)
    (st : HState) (fuel : Nat) (cand : String) (decision : ManagerDecision)
    (hmgr : (a || b) = true)
    (hsent : containsSubstr (env.managerResponse (st.iterationCount + 1)) sentinelString = false)
    (hcand : extractJsonCandidate (env.managerResponse (st.iterationCount + 1)) = some cand)
    (hparse : env.jsonParse cand = some decision)
    (hmiss : optFindTask (nonCompletedTasks st) decision.taskIdToDelegate = none ∨
      optFindAgent agents decision.agentIdToAssign = none) :
    ∃ emsg,
      hierStep agents a b env st = StepOut.cont (missState st emsg) ∧
      (missState st emsg).trace.execCalls = st.trace.execCalls ∧
      (missState st emsg).attempts = st.attempts ∧
      nonCompletedTasks (missState st emsg) = nonCompletedTasks st ∧
      mapGet (missState st emsg).taskOutputs (managerErrorKey (st.iterationCount + 1)) =
        some (managerErrorDetail emsg) ∧
      ((nonCompletedTasks st).isEmpty = false →
        hierLoop agents a b env (fuel + 1) st = hierLoop agents a b env fuel (missState st emsg)) := by
  cases ht : optFindTask (nonCompletedTasks st) decision.taskIdToDelegate with
  | none =>
    have ht2 : optFindTask (nonCompletedTasks (afterManagerCall st)) decision.taskIdToDelegate =
        none := ht
    have hstep : hierStep agents a b env st =
        StepOut.cont (missState st (missTaskMsg decision.taskIdToDelegate)) := by
      simp only [hierStep, hmgr, if_true, hierRespond, hsent, Bool.false_eq_true, if_false,
        hcand, hparse, hierDelegate, ht2, missState, afterManagerCall_taskOutputs,
        afterManagerCall_iterationCount]
    refine ⟨missTaskMsg decision.taskIdToDelegate, hstep, rfl, rfl, rfl,
      mapGet_mapSet_self _ _ _, ?_⟩
    intro hg
    conv_lhs => unfold hierLoop
    simp [hg, hstep]
  | some task =>
    have ha : optFindAgent agents decision.agentIdToAssign = none := by
      rcases hmiss with hm | hm
      · rw [ht] at hm; cases hm
      · exact hm
    have ht2 : optFindTask (nonCompletedTasks (afterManagerCall st)) decision.taskIdToDelegate =
        some task := ht
    have hstep : hierStep agents a b env st =
        StepOut.cont (missState st (missAgentMsg decision.agentIdToAssign)) := by
      simp only [hierStep, hmgr, if_true, hierRespond, hsent, Bool.false_eq_true, if_false,
        hcand, hparse, hierDelegate, ht2, ha, missState, afterManagerCall_taskOutputs,
        afterManagerCall_iterationCount]
    refine ⟨missAgentMsg decision.agentIdToAssign, hstep, rfl, rfl, rfl,
      mapGet_mapSet_self _ _ _, ?_⟩
    intro hg
    conv_lhs => unfold hierLoop
    simp [hg, hstep]

theorem c3_unknown_ids_are_recoverable_witness :
    ((false || true) = true) ∧
    (containsSubstr (envMissThenDone.managerResponse 1) sentinelString = false) ∧
    (extractJsonCandidate (envMissThenDone.managerResponse 1) = some respBogus) ∧
    (envMissThenDone.jsonParse respBogus = some ⟨some "nope", some "a1", none⟩) ∧
    (optFindTask (nonCompletedTasks (initHState [tskA]))
      (some "nope" : Option String) = none) ∧
    (∃ emsg,
      hierStep [agA, agB] false true envMissThenDone (initHState [tskA]) =
        StepOut.cont (missState (initHState [tskA]) emsg) ∧
      (missState (initHState [tskA]) emsg).trace.execCalls =
        (initHState [tskA]).trace.execCalls ∧
      (missState (initHState [tskA]) emsg).attempts = (initHState [tskA]).attempts ∧
      nonCompletedTasks (missState (initHState [tskA]) emsg) =
        nonCompletedTasks (initHState [tskA]) ∧
      mapGet (missState (initHState [tskA]) emsg).taskOutputs (managerErrorKey 1) =
        some (managerErrorDetail emsg) ∧
      (((nonCompletedTasks (initHState [tskA])).isEmpty = false) →
        hierLoop [agA, agB] false true envMissThenDone (10 + 1) (initHState [tskA]) =
          hierLoop [agA, agB] false true envMissThenDone 10
            (missState (initHState [tskA]) emsg))) :=
  ⟨rfl, by decide, by decide, rfl, rfl,
   c3_unknown_ids_are_recoverable [agA, agB] false true envMissThenDone (initHState [tskA]) 10
     respBogus ⟨some "nope", some "a1", none⟩ rfl (by decide) (by decide) rfl
     (Or.inl rfl)⟩

/-- C1: in a hierarchical iteration whose Manager response does not contain
the completion sentinel and from which no JSON object can be extracted and
parsed, the failure is fatal for the entire run: the step throws with no
Task Executor call added, the loop propagates the error, and the run-level
catch leaves the Crew FAILED with the error message stored as the Crew
output; starting from a fresh hierarchical Crew whose first response is
unparseable, runCrew ends FAILED with zero executor invocations. -/
theorem c1_parse_failure_is_run_fatal (agents : List Agent) (a b : Bool) (env : Env)
    (st : HState) (fuel : Nat)
    (hmgr : (a || b) = true)
    (hsent : containsSubstr (env.managerResponse (st.iterationCount + 1)) sentinelString = false)
    (hfail : ∀ c, extractJsonCandidate (env.managerResponse (st.iterationCount + 1)) = some c →
      env.jsonParse c = none) :
    hierStep agents a b env st =
      StepOut.fatal (parseFatalState (afterManagerCall st) (env.managerResponse (st.iterationCount + 1)))
        (parseFatalMsg (env.managerResponse (st.iterationCount + 1))) ∧
    (parseFatalState (afterManagerCall st) (env.managerResponse (st.iterationCount + 1))).trace.execCalls =
      st.trace.execCalls ∧
    ((nonCompletedTasks st).isEmpty = false →
      hierLoop agents a b env (fuel + 1) st =
        HierExit.fatal
          (parseFatalState (afterManagerCall st) (env.managerResponse (st.iterationCount + 1)))
          (parseFatalMsg (env.managerResponse (st.iterationCount + 1)))) ∧
    (∀ (crew1 : Crew) (mi : Nat),
      (applyHierExit crew1 env mi
        (HierExit.fatal
          (parseFatalState (afterManagerCall st) (env.managerResponse (st.iterationCount + 1)))
          (parseFatalMsg (env.managerResponse (st.iterationCount + 1))))).1.status =
        CrewStatus.FAILED ∧
      (applyHierExit crew1 env mi
        (HierExit.fatal
          (parseFatalState (afterManagerCall st) (env.managerResponse (st.iterationCount + 1)))
          (parseFatalMsg (env.managerResponse (st.iterationCount + 1))))).1.output =
        errObj (parseFatalMsg (env.managerResponse (st.iterationCount + 1)))) := by
  have hstep : hierStep agents a b env st =
      StepOut.fatal (parseFatalState (afterManagerCall st) (env.managerResponse (st.iterationCount + 1)))
        (parseFatalMsg (env.managerResponse (st.iterationCount + 1))) := by
    cases hx : extractJsonCandidate (env.managerResponse (st.iterationCount + 1)) with
    | none => simp [hierStep, hmgr, hierRespond, hsent, hx]
    | some c =>
      have hp := hfail c hx
      simp [hierStep, hmgr, hierRespond, hsent, hx, hp]
  refine ⟨hstep, rfl, ?_, ?_⟩
  · intro hg
    conv_lhs => unfold hierLoop
    simp [hg, hstep]
  · intro crew1 mi
    exact ⟨rfl, rfl⟩

theorem c1_parse_failure_is_run_fatal_witness :
    ((false || true) = true) ∧
    (containsSubstr (envParseFail.managerResponse 1) sentinelString = false) ∧
    (∀ c, extractJsonCandidate (envParseFail.managerResponse 1) = some c →
      envParseFail.jsonParse c = none) ∧
    hierStep [agA, agB] false true envParseFail (initHState [tskA, tskB]) =
      StepOut.fatal
        (parseFatalState (afterManagerCall (initHState [tskA, tskB]))
          (envParseFail.managerResponse 1))
        (parseFatalMsg (envParseFail.managerResponse 1)) := by
  have hfail : ∀ c, extractJsonCandidate (envParseFail.managerResponse 1) = some c →
      envParseFail.jsonParse c = none := by
    intro c hc
    rw [show extractJsonCandidate (envParseFail.managerResponse 1) = none from rfl] at hc
    cases hc
  exact ⟨rfl, by decide, hfail,
    (c1_parse_failure_is_run_fatal [agA, agB] false true envParseFail (initHState [tskA, tskB]) 0
      rfl (by decide) hfail).1⟩

theorem applySeqExit_trace (c : Crew) (ex : SeqExit) :
    (applySeqExit c ex).2 = (seqExitState ex).trace := by
  cases ex <;> rfl

theorem applyHierExit_managerCalls (c : Crew) (env : Env) (mi : Nat) (ex : HierExit) :
    (applyHierExit c env mi ex).2.managerCalls = (exitState ex).trace.managerCalls := by
  cases ex with
  | fatal st m => rfl
  | normal st => exact (hierNormalFinish_counters c env mi st).1

/-- C2 (amended): the hierarchical decision loop makes at most
`taskCount + 10` Manager iterations, and a run that reaches the ceiling
with incomplete tasks still ends COMPLETED; the Crew output becomes the
warning payload listing the unfinished tasks only when the provisional
output is empty (falsy, or with zero keys) — otherwise the provisional
output from already-completed tasks is preserved. -/
theorem c2_ceiling_bound_and_degraded_success :
    (∀ (crew : Crew) (env : Env),
      (runCrew crew env).2.managerCalls ≤ crew.config.tasks.length + 10) ∧
    (∀ (crew1 : Crew) (env : Env) (mi : Nat) (st : HState),
      (nonCompletedTasks st).isEmpty = false →
      mi ≤ st.iterationCount →
      (applyHierExit crew1 env mi (HierExit.normal st)).1.status = CrewStatus.COMPLETED ∧
      (applyHierExit crew1 env mi (HierExit.normal st)).1.output =
        (if !(jvTruthy st.finalOutput) || (jvKeysLen st.finalOutput == 0) then warningPayload st
         else st.finalOutput)) := by
  constructor
  · intro crew env
    unfold runCrew
    by_cases h1 : crew.status = CrewStatus.RUNNING
    · simp [h1, RunTrace.empty]
    · simp only [h1, if_false]
      by_cases h2 : crew.status = CrewStatus.COMPLETED ∨ crew.status = CrewStatus.FAILED
      · simp [h2, RunTrace.empty]
      · simp only [h2, if_false]
        cases hp : crew.config.process.getD CrewProcess.SEQUENTIAL with
        | SEQUENTIAL =>
          dsimp only
          rw [applySeqExit_trace]
          rw [(seqLoop_counters env crew.config.agents crew.config.tasks initSState).1]
          simp [initSState, RunTrace.empty]
        | HIERARCHICAL =>
          dsimp only
          by_cases hm : (crew.managerAgentInstance.isNone && !crew.managerLlmInstance) = true
          · simp [hm, RunTrace.empty]
          · simp only [hm, Bool.false_eq_true, if_false]
            rw [applyHierExit_managerCalls]
            have hl := (hierLoop_counters crew.config.agents crew.managerAgentInstance.isSome
              crew.managerLlmInstance env (crew.config.tasks.length + 10)
              (initHState crew.config.tasks)).1
            have hz : (initHState crew.config.tasks).trace.managerCalls = 0 := rfl
            omega
  · intro crew1 env mi st hnc hble
    have hb : Nat.ble mi st.iterationCount = true := Nat.ble_eq.mpr hble
    have hgate : ((nonCompletedTasks st).isEmpty && !st.taskOutputs.isEmpty) = false := by
      rw [hnc]; rfl
    constructor
    · exact hierNormalFinish_status crew1 env mi st
    · show (hierNormalFinish crew1 env mi st).1.output = _
      unfold hierNormalFinish
      simp [hgate, mkDone, ceilingAdjustedOutput, hnc, hb]

theorem hierLoop_step_cont (ags : List Agent) (a b : Bool) (env : Env) (fuel : Nat)
    (st st2 : HState)
    (hg : (nonCompletedTasks st).isEmpty = false)
    (hs : hierStep ags a b env st = StepOut.cont st2) :
    hierLoop ags a b env (fuel + 1) st = hierLoop ags a b env fuel st2 := by
  conv_lhs => unfold hierLoop
  simp [hg, hs]

theorem c2_step1 :
    hierStep [agA, agB] false true envCeiling (initHState [tskA, tskB]) =
      StepOut.cont (c2state 1) :=
  rfl

theorem c2_step2 :
    hierStep [agA, agB] false true envCeiling (c2state 1) = StepOut.cont (c2state 2) :=
  rfl

theorem c2_step3 :
    hierStep [agA, agB] false true envCeiling (c2state 2) = StepOut.cont (c2state 3) :=
  rfl

theorem c2_step4 :
    hierStep [agA, agB] false true envCeiling (c2state 3) = StepOut.cont (c2state 4) :=
  rfl

theorem c2_step5 :
    hierStep [agA, agB] false true envCeiling (c2state 4) = StepOut.cont (c2state 5) :=
  rfl

theorem c2_step6 :
    hierStep [agA, agB] false true envCeiling (c2state 5) = StepOut.cont (c2state 6) :=
  rfl

theorem c2_step7 :
    hierStep [agA, agB] false true envCeiling (c2state 6) = StepOut.cont (c2state 7) :=
  rfl

theorem c2_step8 :
    hierStep [agA, agB] false true envCeiling (c2state 7) = StepOut.cont (c2state 8) :=
  rfl

theorem c2_step9 :
    hierStep [agA, agB] false true envCeiling (c2state 8) = StepOut.cont (c2state 9) :=
  rfl

theorem c2_step10 :
    hierStep [agA, agB] false true envCeiling (c2state 9) = StepOut.cont (c2state 10) :=
  rfl

theorem c2_step11 :
    hierStep [agA, agB] false true envCeiling (c2state 10) = StepOut.cont (c2state 11) :=
  rfl

theorem c2_step12 :
    hierStep [agA, agB] false true envCeiling (c2state 11) = StepOut.cont (c2state 12) :=
  rfl


theorem c2_loop :
    hierLoop [agA, agB] false true envCeiling 12 (initHState [tskA, tskB]) =
      HierExit.normal (c2state 12) := by
  calc hierLoop [agA, agB] false true envCeiling 12 (initHState [tskA, tskB])
      _ = hierLoop [agA, agB] false true envCeiling 11 (c2state 1) :=
        hierLoop_step_cont _ _ _ _ _ _ _ rfl c2_step1
      _ = hierLoop [agA, agB] false true envCeiling 10 (c2state 2) :=
        hierLoop_step_cont _ _ _ _ _ _ _ rfl c2_step2
      _ = hierLoop [agA, agB] false true envCeiling 9 (c2state 3) :=
        hierLoop_step_cont _ _ _ _ _ _ _ rfl c2_step3
      _ = hierLoop [agA, agB] false true envCeiling 8 (c2state 4) :=
        hierLoop_step_cont _ _ _ _ _ _ _ rfl c2_step4
      _ = hierLoop [agA, agB] false true envCeiling 7 (c2state 5) :=
        hierLoop_step_cont _ _ _ _ _ _ _ rfl c2_step5
      _ = hierLoop [agA, agB] false true envCeiling 6 (c2state 6) :=
        hierLoop_step_cont _ _ _ _ _ _ _ rfl c2_step6
      _ = hierLoop [agA, agB] false true envCeiling 5 (c2state 7) :=
        hierLoop_step_cont _ _ _ _ _ _ _ rfl c2_step7
      _ = hierLoop [agA, agB] false true envCeiling 4 (c2state 8) :=
        hierLoop_step_cont _ _ _ _ _ _ _ rfl c2_step8
      _ = hierLoop [agA, agB] false true envCeiling 3 (c2state 9) :=
        hierLoop_step_cont _ _ _ _ _ _ _ rfl c2_step9
      _ = hierLoop [agA, agB] false true envCeiling 2 (c2state 10) :=
        hierLoop_step_cont _ _ _ _ _ _ _ rfl c2_step10
      _ = hierLoop [agA, agB] false true envCeiling 1 (c2state 11) :=
        hierLoop_step_cont _ _ _ _ _ _ _ rfl c2_step11
      _ = hierLoop [agA, agB] false true envCeiling 0 (c2state 12) :=
        hierLoop_step_cont _ _ _ _ _ _ _ rfl c2_step12
      _ = HierExit.normal (c2state 12) := rfl

/-- C2 counterexample: with two tasks, iteration 1 completes the first
(provisional output "done:research", a non-empty string) and every later
iteration designates an unknown task id, so the run reaches the ceiling
(12 = 2 + 10 Manager iterations) with the second task still pending — yet
the final Crew output is the preserved provisional string, not a warning
payload (it has no "warning" key), refuting the claim that the output
becomes the warning payload whenever the ceiling is reached with
unfinished tasks. -/
theorem c2_ceiling_counterexample :
    (runCrew crewH2 envCeiling).2.managerCalls = crewH2.config.tasks.length + 10 ∧
    ((runCrew crewH2 envCeiling).1.config.tasks.map (fun t => statusText t.status)) =
      ["completed", "pending"] ∧
    (runCrew crewH2 envCeiling).1.status = CrewStatus.COMPLETED ∧
    (runCrew crewH2 envCeiling).1.output = JValue.vstr "done:research" ∧
    jvHasKey (runCrew crewH2 envCeiling).1.output "warning" = false := by
  have hrun : runCrew crewH2 envCeiling =
      applyHierExit { crewH2 with status := CrewStatus.RUNNING } envCeiling
        (crewH2.config.tasks.length + 10)
        (hierLoop crewH2.config.agents crewH2.managerAgentInstance.isSome
          crewH2.managerLlmInstance envCeiling (crewH2.config.tasks.length + 10)
          (initHState crewH2.config.tasks)) := by
    unfold runCrew
    rw [if_neg (by decide : ¬ crewH2.status = CrewStatus.RUNNING)]
    rw [if_neg (by decide : ¬ (crewH2.status = CrewStatus.COMPLETED ∨
      crewH2.status = CrewStatus.FAILED))]
    rw [show crewH2.config.process.getD CrewProcess.SEQUENTIAL = CrewProcess.HIERARCHICAL from rfl]
    dsimp only
    rw [show (crewH2.managerAgentInstance.isNone && !crewH2.managerLlmInstance) = false from rfl]
    simp only [Bool.false_eq_true, if_false]
  have e1 : crewH2.config.agents = [agA, agB] := rfl
  have e2 : crewH2.managerAgentInstance.isSome = false := rfl
  have e3 : crewH2.managerLlmInstance = true := rfl
  have e4 : crewH2.config.tasks.length + 10 = 12 := rfl
  have e5 : crewH2.config.tasks = [tskA, tskB] := rfl
  rw [hrun, e1, e2, e3, e4, e5, c2_loop]
  exact ⟨rfl, rfl, rfl, rfl, rfl⟩

theorem charIdx?_none_of_all (p : Char → Bool) (l : List Char)
    (h : ∀ c ∈ l, p c = false) : charIdx? p l = none := by
  induction l with
  | nil => rfl
  | cons c rest ih =>
    have hc := h c (List.mem_cons_self _ _)
    simp [charIdx?, hc, ih (fun d hd => h d (List.mem_cons_of_mem _ hd))]

theorem charIdx?_append_of_all (p : Char → Bool) (l1 l2 : List Char)
    (h : ∀ c ∈ l1, p c = false) :
    charIdx? p (l1 ++ l2) = (charIdx? p l2).map (· + l1.length) := by
  induction l1 with
  | nil =>
    simp only [List.nil_append, List.length_nil]
    cases charIdx? p l2 <;> simp
  | cons c rest ih =>
    have hc := h c (List.mem_cons_self _ _)
    have ih2 := ih (fun d hd => h d (List.mem_cons_of_mem _ hd))
    have hstep : charIdx? p (c :: rest ++ l2) = (charIdx? p (rest ++ l2)).map (· + 1) := by
      simp [charIdx?, hc]
    rw [hstep, ih2, List.length_cons]
    cases charIdx? p l2 <;> simp [Nat.add_assoc]

/-- C5 counterexample: on a response holding a fenced JSON object followed
by prose with a second brace-delimited object, the source's extraction
(greedy first-brace-to-last-brace span) differs from the spec's described
search (prefer the fenced object, else the first brace-delimited
substring). -/
theorem c5_extraction_counterexample :
    extractJsonCandidate c5input ≠ specExtractJsonCandidate c5input ∧
    specExtractJsonCandidate c5input = some "\x7b\"a\":1\x7d" ∧
    extractJsonCandidate c5input = some "\x7b\"a\":1\x7d\n``` tail \x7b\"b\":2\x7d" := by
  exact ⟨by decide, by decide, by decide⟩

/-- C5 (amended): the decision-extraction step searches the Manager's
response with the single greedy regex match from the first open brace to
the last close brace of the whole response (dot matching newlines), with
no preference for code-fenced blocks; it finds nothing when the response
has no open brace. -/
theorem c5_amended_greedy_span (pre mid post : String)
    (h1 : ∀ c ∈ pre.data, (c == openBraceChar) = false)
    (h2 : ∀ c ∈ post.data, (c == closeBraceChar) = false) :
    extractJsonCandidate (pre ++ "\x7b" ++ mid ++ "\x7d" ++ post) =
      some ("\x7b" ++ mid ++ "\x7d") ∧
    ∀ s : String, (∀ c ∈ s.data, (c == openBraceChar) = false) →
      extractJsonCandidate s = none := by
  constructor
  · have hL : (pre ++ "\x7b" ++ mid ++ "\x7d" ++ post).data =
        pre.data ++ ('\x7b' :: (mid.data ++ ('\x7d' :: post.data))) := by
      simp [String.data_append]
    have hfirst : charIdx? (fun c => c == openBraceChar)
        (pre ++ "\x7b" ++ mid ++ "\x7d" ++ post).data = some pre.data.length := by
      rw [hL, charIdx?_append_of_all _ _ _ h1]
      simp [charIdx?, openBraceChar]
    have hrev : (pre ++ "\x7b" ++ mid ++ "\x7d" ++ post).data.reverse =
        post.data.reverse ++ ('\x7d' :: (mid.data.reverse ++ ('\x7b' :: pre.data.reverse))) := by
      rw [hL]
      simp
    have h2r : ∀ c ∈ post.data.reverse, (c == closeBraceChar) = false := by
      intro c hc
      exact h2 c (List.mem_reverse.mp hc)
    have hlastrev : charIdx? (fun d => d == closeBraceChar)
        (pre ++ "\x7b" ++ mid ++ "\x7d" ++ post).data.reverse = some post.data.length := by
      rw [hrev, charIdx?_append_of_all _ _ _ h2r]
      simp [charIdx?, closeBraceChar]
    have hlen : (pre ++ "\x7b" ++ mid ++ "\x7d" ++ post).data.length =
        pre.data.length + mid.data.length + post.data.length + 2 := by
      rw [hL]
      simp only [List.length_append, List.length_cons]
      omega
    have hlast : lastIdxOf (pre ++ "\x7b" ++ mid ++ "\x7d" ++ post).data closeBraceChar =
        some (pre.data.length + mid.data.length + 1) := by
      unfold lastIdxOf
      rw [hlastrev]
      dsimp only
      rw [hlen]
      exact congrArg some (by omega)
    unfold extractJsonCandidate
    rw [hfirst, hlast]
    have hlt : pre.data.length < pre.data.length + mid.data.length + 1 := by omega
    dsimp only
    rw [if_pos hlt]
    have hdrop : (pre ++ "\x7b" ++ mid ++ "\x7d" ++ post).data.drop pre.data.length =
        '\x7b' :: (mid.data ++ ('\x7d' :: post.data)) := by
      rw [hL]
      exact List.drop_left _ _
    have htake : pre.data.length + mid.data.length + 1 - pre.data.length + 1 =
        mid.data.length + 2 := by omega
    rw [hdrop, htake]
    have hslice : List.take (mid.data.length + 2) ('\x7b' :: (mid.data ++ ('\x7d' :: post.data))) =
        '\x7b' :: (mid.data ++ ['\x7d']) := by
      have ht1 : List.take (mid.data.length + 1) (mid.data ++ ('\x7d' :: post.data)) =
          mid.data ++ List.take 1 ('\x7d' :: post.data) := List.take_append 1
      simp only [List.take_succ_cons, ht1]
      simp
    rw [hslice]
    have hdata : ("\x7b" ++ mid ++ "\x7d").data = '\x7b' :: (mid.data ++ ['\x7d']) := by
      simp [String.data_append]
    have hstr : String.mk ('\x7b' :: (mid.data ++ ['\x7d'])) = "\x7b" ++ mid ++ "\x7d" :=
      ((congrArg String.mk hdata).symm.trans rfl)
    rw [hstr]
  · intro s hs
    unfold extractJsonCandidate
    rw [charIdx?_none_of_all _ _ hs]

theorem c5_amended_greedy_span_witness :
    (∀ c ∈ ("x: " : String).data, (c == openBraceChar) = false) ∧
    (∀ c ∈ (" ok" : String).data, (c == closeBraceChar) = false) ∧
    extractJsonCandidate ("x: " ++ "\x7b" ++ "\"a\":1" ++ "\x7d" ++ " ok") =
      some ("\x7b" ++ "\"a\":1" ++ "\x7d") ∧
    extractJsonCandidate "no braces" = none := by
  refine ⟨by decide, by decide, ?_, ?_⟩
  · exact (c5_amended_greedy_span "x: " "\"a\":1" " ok" (by decide) (by decide)).1
  · exact (c5_amended_greedy_span "x: " "\"a\":1" " ok" (by decide) (by decide)).2
      "no braces" (by decide)

/-- C6: in a sequential run, a task whose execution ends FAILED or raises
aborts the run at that task: the loop returns the fatal exit after exactly
one further Task Executor invocation (so no later task is ever executed),
and the run-level catch leaves the Crew FAILED with the error message
stored as the Crew output; moreover runCrew on a fresh sequential Crew is
exactly this loop composed with that catch. -/
theorem c6_sequential_failure_aborts (env : Env) (agents : List Agent) (task : Task)
    (rest : List Task) (st : SState) (ag : Agent)
    (hag : task.config.agent = some ag ∨ (task.config.agent = none ∧ agents.head? = some ag))
    (hexec : (∃ m, env.execResult st.execCount = ExecOutcome.raise m) ∨
      (∃ out po ve er lg, env.execResult st.execCount =
        ExecOutcome.ret TaskStatus.FAILED out po ve er lg)) :
    (∃ st2 msg, seqLoop env agents (task :: rest) st = SeqExit.fatal st2 msg ∧
      st2.trace.execCalls = st.trace.execCalls ++ [⟨0, task.id, ag.id⟩] ∧
      ∀ crew1 : Crew,
        (applySeqExit crew1 (SeqExit.fatal st2 msg)).1.status = CrewStatus.FAILED ∧
        (applySeqExit crew1 (SeqExit.fatal st2 msg)).1.output = errObj msg) ∧
    (∀ crew : Crew, crew.status = CrewStatus.PENDING →
      crew.config.process.getD CrewProcess.SEQUENTIAL = CrewProcess.SEQUENTIAL →
      runCrew crew env =
        applySeqExit { crew with status := CrewStatus.RUNNING }
          (seqLoop env crew.config.agents crew.config.tasks initSState)) := by
  constructor
  · have hagr : (match task.config.agent with
        | some a => some a
        | none => agents.head?) = some ag := by
      rcases hag with h | ⟨h1, h2⟩
      · rw [h]
      · rw [h1]; exact h2
    rcases hexec with ⟨m, hm⟩ | ⟨out, po, ve, er, lg, hm⟩
    · refine ⟨{ st with
          execCount := st.execCount + 1
          trace := st.trace.addExec 0 task.id ag.id
          finalOutput := JValue.vobj
            [("error", JValue.vstr ("Critical error during sequential execution of task " ++ task.id)),
             ("details", JValue.vstr m)]
          taskOutputs := mapSet st.taskOutputs task.id
            ⟨JValue.vnull, none, none, some (JValue.vobj [("critical", JValue.vstr m)]),
             task.logs ++ ["Critical error: " ++ m]⟩
          tasksAcc := st.tasksAcc ++ task :: rest },
        "Critical error during sequential execution of task " ++ task.id ++ ": " ++ m,
        ?_, by simp [RunTrace.addExec], fun crew1 => ⟨rfl, rfl⟩⟩
      conv_lhs =>
        unfold seqLoop
        rw [hagr]
      dsimp only
      rw [hm]
    · let task2 : Task := { task with status := TaskStatus.FAILED, output := out, parsedOutput := po, validationError := ve, error := er, logs := lg }
      refine ⟨{ st with
          execCount := st.execCount + 1
          trace := st.trace.addExec 0 task.id ag.id
          tasksAcc := st.tasksAcc ++ task2 :: rest
          taskOutputs := mapSet (mapSet st.taskOutputs task.id (failedDetail task2)) task.id ⟨JValue.vnull, none, none, some (JValue.vobj [("critical", JValue.vstr (seqFailMsg task2))]), lg ++ ["Critical error: " ++ seqFailMsg task2]⟩
          finalOutput := JValue.vobj [("error", JValue.vstr ("Critical error during sequential execution of task " ++ task.id)), ("details", JValue.vstr (seqFailMsg task2))] },
        "Critical error during sequential execution of task " ++ task.id ++ ": " ++ seqFailMsg task2,
        ?_, by simp [RunTrace.addExec], fun crew1 => ⟨rfl, rfl⟩⟩
      conv_lhs =>
        unfold seqLoop
        rw [hagr]
      dsimp only
      rw [hm]
      dsimp only
      rw [if_neg (by decide : ¬ (TaskStatus.FAILED = TaskStatus.COMPLETED)), if_pos rfl]
  · intro crew hps hproc
    unfold runCrew
    rw [if_neg (by rw [hps]; decide), if_neg (by rw [hps]; decide)]
    rw [hproc]

/-- createCrew produces a PENDING Crew with an empty tasksOutput map. -/
theorem createCrew_ok_fields (id : String) (cfg : CrewConfig) (mgr : Option ManagerInput)
    (crew : Crew) (hc : createCrew id cfg mgr = Except.ok crew) :
    crew.status = CrewStatus.PENDING ∧ crew.tasksOutput = [] := by
  unfold createCrew at hc
  split at hc
  · cases hc
  · split at hc
    · cases hc
    · split at hc
      · cases hc
      · dsimp only at hc
        split at hc
        · split at hc
          · cases hc
          · cases hc; exact ⟨rfl, rfl⟩
          · cases hc; exact ⟨rfl, rfl⟩
          · cases hc; exact ⟨rfl, rfl⟩
          · cases hc
          · cases hc
        · cases hc; exact ⟨rfl, rfl⟩

/-- A FAILED run never assigns tasksOutput and stores an error object. -/
theorem runCrew_failed_shape (crew : Crew) (env : Env)
    (hp : crew.status = CrewStatus.PENDING)
    (hf : (runCrew crew env).1.status = CrewStatus.FAILED) :
    (runCrew crew env).1.tasksOutput = crew.tasksOutput ∧
    ∃ m, (runCrew crew env).1.output = errObj m := by
  unfold runCrew at hf ⊢
  rw [if_neg (by rw [hp]; decide), if_neg (by rw [hp]; decide)] at hf ⊢
  cases hpr : crew.config.process.getD CrewProcess.SEQUENTIAL with
  | SEQUENTIAL =>
    rw [hpr] at hf
    dsimp only at hf ⊢
    cases hx : seqLoop env crew.config.agents crew.config.tasks initSState with
    | ok st =>
      rw [hx] at hf
      simp [applySeqExit] at hf
    | fatal st m =>
      exact ⟨rfl, m, rfl⟩
  | HIERARCHICAL =>
    rw [hpr] at hf
    dsimp only at hf ⊢
    by_cases hm : (crew.managerAgentInstance.isNone && !crew.managerLlmInstance) = true
    · rw [if_pos hm] at hf ⊢
      exact ⟨rfl, _, rfl⟩
    · rw [if_neg hm] at hf ⊢
      cases hx : hierLoop crew.config.agents crew.managerAgentInstance.isSome
          crew.managerLlmInstance env (crew.config.tasks.length + 10)
          (initHState crew.config.tasks) with
      | fatal st m =>
        exact ⟨rfl, m, rfl⟩
      | normal st =>
        rw [hx] at hf
        have hst := hierNormalFinish_status { crew with status := CrewStatus.RUNNING } env
          (crew.config.tasks.length + 10) st
        rw [show applyHierExit { crew with status := CrewStatus.RUNNING } env
            (crew.config.tasks.length + 10) (HierExit.normal st) =
            hierNormalFinish { crew with status := CrewStatus.RUNNING } env
              (crew.config.tasks.length + 10) st from rfl] at hf
        rw [hst] at hf
        cases hf

/-- C9: if a run on a freshly created Crew ends FAILED, every per-task
output detail collected during the run is discarded: crew.tasksOutput is
still the empty map produced by createCrew, and only crew.output — an
object with an error field — reflects what happened. -/
theorem c9_failed_run_discards_task_outputs (id : String) (cfg : CrewConfig)
    (mgr : Option ManagerInput) (crew : Crew) (env : Env)
    (hc : createCrew id cfg mgr = Except.ok crew)
    (hf : (runCrew crew env).1.status = CrewStatus.FAILED) :
    (runCrew crew env).1.tasksOutput = [] ∧
    ∃ m, (runCrew crew env).1.output = errObj m := by
  obtain ⟨hp, hto⟩ := createCrew_ok_fields id cfg mgr crew hc
  obtain ⟨h1, h2⟩ := runCrew_failed_shape crew env hp hf
  exact ⟨h1.trans hto, h2⟩

theorem c6_sequential_failure_aborts_witness :
    (tskA.config.agent = some agA) ∧
    (envExecFail.execResult 0 =
      ExecOutcome.ret TaskStatus.FAILED (JValue.vstr "bad") none none
        (some (JValue.vstr "boom")) ["log1"]) ∧
    (∃ st2 msg, seqLoop envExecFail [agA, agB] [tskA, tskB] initSState = SeqExit.fatal st2 msg ∧
      st2.trace.execCalls = initSState.trace.execCalls ++ [⟨0, tskA.id, agA.id⟩] ∧
      ∀ crew1 : Crew,
        (applySeqExit crew1 (SeqExit.fatal st2 msg)).1.status = CrewStatus.FAILED ∧
        (applySeqExit crew1 (SeqExit.fatal st2 msg)).1.output = errObj msg) := by
  refine ⟨rfl, rfl, ?_⟩
  exact (c6_sequential_failure_aborts envExecFail [agA, agB] tskA [tskB] initSState agA
    (Or.inl rfl) (Or.inr ⟨_, _, _, _, _, rfl⟩)).1

theorem c9_failed_run_discards_task_outputs_witness :
    (createCrew "c1" ⟨[agA, agB], [tskA, tskB], some CrewProcess.HIERARCHICAL, none⟩
      (some ManagerInput.llmInstance) = Except.ok crewH2) ∧
    ((runCrew crewH2 envParseFail).1.status = CrewStatus.FAILED) ∧
    ((runCrew crewH2 envParseFail).1.tasksOutput = [] ∧
      ∃ m, (runCrew crewH2 envParseFail).1.output = errObj m) := by
  refine ⟨rfl, rfl, ?_⟩
  exact c9_failed_run_discards_task_outputs "c1"
    ⟨[agA, agB], [tskA, tskB], some CrewProcess.HIERARCHICAL, none⟩
    (some ManagerInput.llmInstance) crewH2 envParseFail rfl rfl

/-- C8: the final-summary synthesis runs only when the delegation loop
ended with all tasks COMPLETED and at least one per-task output recorded
(a fatal loop exit never makes a summary call); and when the synthesis
call itself throws, the Crew does not fail: the status is still COMPLETED
and the output degrades to an object carrying the prior provisional
output plus the synthesis error message; consequently any run that made a
summary call ends COMPLETED. -/
theorem c8_summary_gating_and_degradation :
    (∀ (crew1 : Crew) (env : Env) (mi : Nat) (st : HState),
      (hierNormalFinish crew1 env mi st).2.summaryCalls ≠ st.trace.summaryCalls →
      (nonCompletedTasks st).isEmpty = true ∧ st.taskOutputs ≠ []) ∧
    (∀ (crew1 : Crew) (env : Env) (mi : Nat) (st : HState) (m : String),
      (applyHierExit crew1 env mi (HierExit.fatal st m)).2.summaryCalls =
        st.trace.summaryCalls) ∧
    (∀ (crew1 : Crew) (env : Env) (mi : Nat) (st : HState) (m : String),
      (nonCompletedTasks st).isEmpty = true →
      st.taskOutputs ≠ [] →
      summaryProviderAvailable crew1 = true →
      (st.taskOutputs.filter (fun p => successFilter p.2)).isEmpty = false →
      env.summaryResult = Except.error m →
      (hierNormalFinish crew1 env mi st).1.status = CrewStatus.COMPLETED ∧
      (hierNormalFinish crew1 env mi st).1.output = degradeOutput st.finalOutput m ∧
      (hierNormalFinish crew1 env mi st).2.summaryCalls = st.trace.summaryCalls + 1) ∧
    (∀ (crew : Crew) (env : Env),
      (runCrew crew env).2.summaryCalls ≠ 0 →
      (runCrew crew env).1.status = CrewStatus.COMPLETED) := by
  refine ⟨?_, ?_, ?_, ?_⟩
  · intro crew1 env mi st hne
    by_cases hg : ((nonCompletedTasks st).isEmpty && !st.taskOutputs.isEmpty) = true
    · rw [Bool.and_eq_true] at hg
      obtain ⟨h1, h2⟩ := hg
      refine ⟨h1, fun hnil => ?_⟩
      rw [hnil] at h2
      simp at h2
    · exfalso
      apply hne
      unfold hierNormalFinish
      rw [if_neg hg]
  · intro crew1 env mi st m
    rfl
  · intro crew1 env mi st m hall hne hpa hfil hsum
    have hg : ((nonCompletedTasks st).isEmpty && !st.taskOutputs.isEmpty) = true := by
      rw [hall]
      cases hto : st.taskOutputs with
      | nil => exact absurd hto hne
      | cons p rest => simp
    have hbr : (crew1.managerAgentInstance.isSome || crew1.managerLlmInstance) = true := by
      unfold summaryProviderAvailable at hpa
      cases hmi : crew1.managerAgentInstance with
      | some mm => simp [Option.isSome]
      | none =>
        rw [hmi] at hpa
        simp only [Option.isSome, Bool.false_or]
        simpa using hpa
    have hceil : ceilingAdjustedOutput mi st = st.finalOutput := by
      unfold ceilingAdjustedOutput
      rw [hall]
      simp
    unfold hierNormalFinish
    rw [if_pos hg, if_pos hpa]
    rw [if_neg (by rw [hfil]; simp)]
    rw [if_pos hbr, hsum]
    dsimp only
    rw [hceil]
    exact ⟨rfl, rfl, rfl⟩
  · intro crew env hne
    by_cases h1 : crew.status = CrewStatus.RUNNING
    · rw [show runCrew crew env = (crew, RunTrace.empty) from by
        unfold runCrew; rw [if_pos h1]] at hne
      simp [RunTrace.empty] at hne
    · by_cases h2 : crew.status = CrewStatus.COMPLETED ∨ crew.status = CrewStatus.FAILED
      · rw [show runCrew crew env = (crew, RunTrace.empty) from by
          unfold runCrew; rw [if_neg h1, if_pos h2]] at hne
        simp [RunTrace.empty] at hne
      · unfold runCrew at hne ⊢
        rw [if_neg h1, if_neg h2] at hne ⊢
        cases hpr : crew.config.process.getD CrewProcess.SEQUENTIAL with
        | SEQUENTIAL =>
          rw [hpr] at hne
          dsimp only at hne ⊢
          rw [applySeqExit_trace] at hne
          rw [(seqLoop_counters env crew.config.agents crew.config.tasks initSState).2] at hne
          simp [initSState, RunTrace.empty] at hne
        | HIERARCHICAL =>
          rw [hpr] at hne
          dsimp only at hne ⊢
          by_cases hm : (crew.managerAgentInstance.isNone && !crew.managerLlmInstance) = true
          · rw [if_pos hm] at hne
            simp [RunTrace.empty] at hne
          · rw [if_neg hm] at hne ⊢
            cases hx : hierLoop crew.config.agents crew.managerAgentInstance.isSome
                crew.managerLlmInstance env (crew.config.tasks.length + 10)
                (initHState crew.config.tasks) with
            | fatal st m =>
              rw [hx] at hne
              exfalso
              have hsc := (hierLoop_counters crew.config.agents
                crew.managerAgentInstance.isSome crew.managerLlmInstance env
                (crew.config.tasks.length + 10) (initHState crew.config.tasks)).2
              rw [hx] at hsc
              simp only [exitState] at hsc
              exact hne hsc
            | normal st =>
              exact hierNormalFinish_status _ _ _ _

theorem c8_summary_gating_and_degradation_witness :
    ((nonCompletedTasks c8state).isEmpty = true) ∧
    (c8state.taskOutputs ≠ []) ∧
    (summaryProviderAvailable crewH1 = true) ∧
    ((c8state.taskOutputs.filter (fun p => successFilter p.2)).isEmpty = false) ∧
    (envSummaryThrows.summaryResult = Except.error "transport down") ∧
    ((hierNormalFinish crewH1 envSummaryThrows 11 c8state).1.status = CrewStatus.COMPLETED ∧
      (hierNormalFinish crewH1 envSummaryThrows 11 c8state).1.output =
        degradeOutput c8state.finalOutput "transport down" ∧
      (hierNormalFinish crewH1 envSummaryThrows 11 c8state).2.summaryCalls =
        c8state.trace.summaryCalls + 1) := by
  refine ⟨rfl, List.cons_ne_nil _ _, rfl, rfl, rfl, ?_⟩
  exact (c8_summary_gating_and_degradation).2.2.1 crewH1 envSummaryThrows 11 c8state
    "transport down" rfl (List.cons_ne_nil _ _) rfl rfl rfl

/-- C10: a hierarchical iteration whose decision names an unknown task or
agent id inserts an entry into the taskOutputs map under the synthetic key
`manager_error_iteration_<n>`, a key that is not any task's identity (task
ids are uuids and do not start with that prefix); such entries survive
into crew.tasksOutput after a successful run and count toward the
`taskOutputs.size > 0` precondition of the final-summary step, so the map
is not a mapping from task identities only. -/
theorem c10_synthetic_error_keys (agents : List Agent) (a b : Bool) (env : Env)
    (st : HState) (cand : String) (decision : ManagerDecision)
    (hmgr : (a || b) = true)
    (hsent : containsSubstr (env.managerResponse (st.iterationCount + 1)) sentinelString = false)
    (hcand : extractJsonCandidate (env.managerResponse (st.iterationCount + 1)) = some cand)
    (hparse : env.jsonParse cand = some decision)
    (hmiss : optFindTask (nonCompletedTasks st) decision.taskIdToDelegate = none ∨
      optFindAgent agents decision.agentIdToAssign = none) :
    (∃ emsg, hierStep agents a b env st = StepOut.cont (missState st emsg) ∧
      mapGet (missState st emsg).taskOutputs (managerErrorKey (st.iterationCount + 1)) =
        some (managerErrorDetail emsg)) ∧
    (∀ t, t ∈ st.tasks → listStarts t.id.data "manager_error_iteration_".data = false →
      t.id ≠ managerErrorKey (st.iterationCount + 1)) ∧
    (runCrew crewH1 envMissThenDone).1.status = CrewStatus.COMPLETED ∧
    mapGet (runCrew crewH1 envMissThenDone).1.tasksOutput (managerErrorKey 1) =
      some (managerErrorDetail (missTaskMsg (some "nope"))) ∧
    (runCrew crewH1 envMissThenDone).2.summaryCalls = 1 ∧
    (runCrew crewH1 envMissThenDone).1.output = JValue.vstr "final synthesis" ∧
    managerErrorKey 1 ≠ "tA" := by
  refine ⟨?_, ?_, rfl, rfl, rfl, rfl, by decide⟩
  · cases ht : optFindTask (nonCompletedTasks st) decision.taskIdToDelegate with
    | none =>
      have ht2 : optFindTask (nonCompletedTasks (afterManagerCall st)) decision.taskIdToDelegate =
          none := ht
      refine ⟨missTaskMsg decision.taskIdToDelegate, ?_, mapGet_mapSet_self _ _ _⟩
      simp only [hierStep, hmgr, if_true, hierRespond, hsent, Bool.false_eq_true, if_false,
        hcand, hparse, hierDelegate, ht2, missState, afterManagerCall_taskOutputs,
        afterManagerCall_iterationCount]
    | some task =>
      have ha : optFindAgent agents decision.agentIdToAssign = none := by
        rcases hmiss with hm | hm
        · rw [ht] at hm
          cases hm
        · exact hm
      have ht2 : optFindTask (nonCompletedTasks (afterManagerCall st)) decision.taskIdToDelegate =
          some task := ht
      refine ⟨missAgentMsg decision.agentIdToAssign, ?_, mapGet_mapSet_self _ _ _⟩
      simp only [hierStep, hmgr, if_true, hierRespond, hsent, Bool.false_eq_true, if_false,
        hcand, hparse, hierDelegate, ht2, ha, missState, afterManagerCall_taskOutputs,
        afterManagerCall_iterationCount]
  · intro t _ hstart heq
    have hkey : listStarts (managerErrorKey (st.iterationCount + 1)).data
        "manager_error_iteration_".data = true := by
      have hd : (managerErrorKey (st.iterationCount + 1)).data =
          "manager_error_iteration_".data ++ (toString (st.iterationCount + 1)).data := by
        simp [managerErrorKey, String.data_append]
      rw [hd]
      exact listStarts_append_self _ _
    rw [heq] at hstart
    rw [hkey] at hstart
    cases hstart

theorem c10_synthetic_error_keys_witness :
    ((false || true) = true) ∧
    (containsSubstr (envMissThenDone.managerResponse 1) sentinelString = false) ∧
    (extractJsonCandidate (envMissThenDone.managerResponse 1) = some respBogus) ∧
    (envMissThenDone.jsonParse respBogus = some ⟨some "nope", some "a1", none⟩) ∧
    (∃ emsg, hierStep [agA, agB] false true envMissThenDone (initHState [tskA]) =
        StepOut.cont (missState (initHState [tskA]) emsg) ∧
      mapGet (missState (initHState [tskA]) emsg).taskOutputs (managerErrorKey 1) =
        some (managerErrorDetail emsg)) ∧
    (∀ t, t ∈ (initHState [tskA]).tasks →
      listStarts t.id.data "manager_error_iteration_".data = false →
      t.id ≠ managerErrorKey 1) := by
  refine ⟨rfl, by decide, by decide, rfl, ?_, ?_⟩
  · exact (c10_synthetic_error_keys [agA, agB] false true envMissThenDone (initHState [tskA])
      respBogus ⟨some "nope", some "a1", none⟩ rfl (by decide) (by decide) rfl
      (Or.inl rfl)).1
  · exact (c10_synthetic_error_keys [agA, agB] false true envMissThenDone (initHState [tskA])
      respBogus ⟨some "nope", some "a1", none⟩ rfl (by decide) (by decide) rfl
      (Or.inl rfl)).2.1

end CrewAI
